import Mathlib

/-
  Verification of the session admission and liveness control subsystem of the
  CotizadorQ application.

  The server side is embedded from the Express backend (`upsertSession`,
  `validateSession`, the `authenticateToken` middleware, the `/api/login`,
  `/api/logout` and `/api/sessions/:sessionId/revoke` routes); the client
  mirror is embedded from `frontend/src/App.jsx` (`registerSessionForUser`,
  `pruneSessions`).

  Conventions of the embedding:
  - timestamps are integers (milliseconds since epoch, like `Date.now()`);
  - the `sesiones` table is a list of rows kept in insertion order, with the
    SERIAL primary key modelled by `rowId` assigned from a `nextId` counter;
  - `ORDER BY last_seen ASC` is modelled as a stable insertion sort keyed on
    `lastSeen` (ties keep table order, i.e. insertion order);
  - JavaScript string falsiness (`undefined`, `null`, `''`) is modelled on
    `Option String`;
  - the nullable text columns are `Option String`; `last_seen` and
    `started_at` always carry a value in the code (the schema defaults them
    to `CURRENT_TIMESTAMP` and every write sets them), so they are plain
    integers here.
-/

namespace CQ

/-- JavaScript falsiness of an optional string header: absent or empty. -/
def strFalsy : Option String → Bool
  | none => true
  | some s => s == ""

/-- Models the `x || null` normalisation applied to header values. -/
def optStr : Option String → Option String
  | none => none
  | some s => if s == "" then none else some s

/-- Models `userAgent || null` where `userAgent` is a plain string. -/
def uaOpt (s : String) : Option String :=
  if s == "" then none else some s

/-- Models `a || b` on already-normalised optional strings. -/
def orElseOpt (a b : Option String) : Option String :=
  match a with
  | some s => some s
  | none => b

/-- ASCII lowercase of a string, modelling `String.prototype.toLowerCase()`
as it is applied to role names in the code. -/
def lowerStr (s : String) : String :=
  String.mk (s.data.map Char.toLower)

/-- One row of the `sesiones` table. -/
structure SessionRow where
  rowId : Nat
  userId : Nat
  sessionId : String
  deviceId : Option String
  ipAddress : Option String
  userAgent : Option String
  startedAt : Int
  lastSeen : Int
  revoked : Bool
deriving DecidableEq

/-- The `sesiones` table: rows in insertion order plus the SERIAL counter. -/
structure Db where
  rows : List SessionRow
  nextId : Nat
deriving DecidableEq

def emptyDb : Db := { rows := [], nextId := 1 }

/-- The session-related request data: the `x-session-id` / `x-device-id`
headers, the client address and the user agent. -/
structure Req where
  sessionId : Option String
  deviceId : Option String
  ip : Option String
  userAgent : String
deriving DecidableEq

/-- The `{ id, role }` part of a user record that the session code reads. -/
structure UserInfo where
  id : Nat
  role : String
deriving DecidableEq

/-- TTL configuration, from `SESSION_TTL_MIN` and `ADMIN_SESSION_TTL_MIN`
(environment variables), in milliseconds. -/
structure Config where
  sessionTtlMs : Int
  adminSessionTtlMs : Int
deriving DecidableEq

/-- The environment defaults: 10 minutes, and 43200 minutes (30 days). -/
def defaultConfig : Config :=
  { sessionTtlMs := 10 * 60 * 1000, adminSessionTtlMs := 43200 * 60 * 1000 }

/-- `getSessionTtlMsForRole`: admin (case-insensitively) gets the long TTL. -/
def getSessionTtlMsForRole (cfg : Config) (role : String) : Int :=
  if lowerStr role == "admin" then cfg.adminSessionTtlMs else cfg.sessionTtlMs

/-- The per-role session limit in `upsertSession`:
`user?.role === 'admin' ? 2 : 1` (a case-sensitive comparison). -/
def limitForRole (role : String) : Nat :=
  if role == "admin" then 2 else 1

/-- The `DELETE FROM sesiones WHERE user_id = $1 AND last_seen < $2` step. -/
def pruneStale (uid : Nat) (ttlDate : Int) (rows : List SessionRow) : List SessionRow :=
  rows.filter (fun r => !(r.userId == uid && decide (r.lastSeen < ttlDate)))

/-- `SELECT ... FROM sesiones WHERE user_id = $1 AND session_id = $2`,
taking the first row like `result.rows[0]`. -/
def findSession (uid : Nat) (sid : String) (rows : List SessionRow) : Option SessionRow :=
  rows.find? (fun r => r.userId == uid && r.sessionId == sid)

/-- The predicate of the active-set query:
`revoked = false AND last_seen >= ttlDate` for the given account. -/
def activePredT (uid : Nat) (ttlDate : Int) (r : SessionRow) : Bool :=
  r.userId == uid && !r.revoked && decide (ttlDate ≤ r.lastSeen)

/-- The rows returned by the active-set query, before ordering. -/
def activeRows (uid : Nat) (ttlDate : Int) (rows : List SessionRow) : List SessionRow :=
  rows.filter (activePredT uid ttlDate)

/-- Stable insertion keyed on `lastSeen` (earlier table rows stay first
among ties). -/
def insLS (x : SessionRow) : List SessionRow → List SessionRow
  | [] => [x]
  | y :: ys => if x.lastSeen ≤ y.lastSeen then x :: y :: ys else y :: insLS x ys

/-- Stable sort modelling `ORDER BY last_seen ASC`. -/
def sortLS : List SessionRow → List SessionRow
  | [] => []
  | x :: xs => insLS x (sortLS xs)

/-- The `while (rows.length >= limit) { rows.shift() ... }` eviction loop:
the list of rows that get revoked, given the ascending active list. -/
def evictList (lim : Nat) : List SessionRow → List SessionRow
  | [] => []
  | r :: rest => if lim ≤ rest.length + 1 then r :: evictList lim rest else []

/-- `UPDATE sesiones SET revoked = true WHERE id = $1`, applied to each
evicted row id. -/
def markRevoked (ids : List Nat) (rows : List SessionRow) : List SessionRow :=
  rows.map (fun r => if ids.contains r.rowId then { r with revoked := true } else r)

/-- The renewal `UPDATE`: overwrites device metadata, bumps `last_seen`,
and resets `revoked` to false. -/
def renewUpdate (now : Int) (dev ip ua : Option String) (r : SessionRow) : SessionRow :=
  { r with deviceId := dev, ipAddress := ip, userAgent := ua,
           lastSeen := now, revoked := false }

/-- The result object of `upsertSession`. -/
structure UpsertResult where
  sessionId : Option String
  revokedSessions : List String
deriving DecidableEq

def upsertTtlDate (cfg : Config) (user : UserInfo) (now : Int) : Int :=
  now - getSessionTtlMsForRole cfg user.role

/-- The table after the inline prune step of `upsertSession`. -/
def upsertPruned (cfg : Config) (user : UserInfo) (now : Int) (db : Db) : List SessionRow :=
  pruneStale user.id (upsertTtlDate cfg user now) db.rows

/-- The active set computed by `upsertSession` (post-prune, pre-sort). -/
def upsertActive (cfg : Config) (user : UserInfo) (now : Int) (db : Db) : List SessionRow :=
  activeRows user.id (upsertTtlDate cfg user now) (upsertPruned cfg user now db)

/-- `upsertSession(user, req)` from the backend, at time `now`. -/
def upsertSession (cfg : Config) (user : UserInfo) (req : Req) (now : Int) (db : Db) :
    Db × UpsertResult :=
  if strFalsy req.sessionId then (db, ⟨none, []⟩) else
  let sid := req.sessionId.getD ""
  let lim := limitForRole user.role
  let rows1 := upsertPruned cfg user now db
  match findSession user.id sid rows1 with
  | some ex =>
      let rows2 := rows1.map (fun r =>
        if r.rowId == ex.rowId then
          renewUpdate now (optStr req.deviceId) (optStr req.ip) (uaOpt req.userAgent) r
        else r)
      ({ rows := rows2, nextId := db.nextId }, ⟨some sid, []⟩)
  | none =>
      let sorted := sortLS (upsertActive cfg user now db)
      let toRevoke := evictList lim sorted
      let rows2 := markRevoked (toRevoke.map (fun r => r.rowId)) rows1
      let newRow : SessionRow :=
        { rowId := db.nextId, userId := user.id, sessionId := sid,
          deviceId := optStr req.deviceId, ipAddress := optStr req.ip,
          userAgent := uaOpt req.userAgent,
          startedAt := now, lastSeen := now, revoked := false }
      ({ rows := rows2 ++ [newRow], nextId := db.nextId + 1 },
       ⟨some sid, toRevoke.map (fun r => r.sessionId)⟩)

/-- The `{ ok, reason }` result of `validateSession`. -/
structure ValResult where
  ok : Bool
  reason : Option String
deriving DecidableEq

/-- The implicit-touch `UPDATE` of a successful validation: bumps
`last_seen` and opportunistically merges the diagnostic metadata
(`COALESCE` keeps the old value when the request carries none). -/
def touchUpdate (now : Int) (req : Req) (s r : SessionRow) : SessionRow :=
  { r with lastSeen := now,
           ipAddress := orElseOpt (optStr req.ip) r.ipAddress,
           userAgent := orElseOpt (uaOpt req.userAgent) r.userAgent,
           deviceId := orElseOpt (orElseOpt (optStr req.deviceId) (optStr s.deviceId)) r.deviceId }

/-- `validateSession(userId, sessionId, req, role)` at time `now`. -/
def validateSession (cfg : Config) (userId : Nat) (sessionId : Option String)
    (req : Req) (role : String) (now : Int) (db : Db) : Db × ValResult :=
  if strFalsy sessionId then (db, ⟨false, some "Sesion requerida"⟩) else
  let sid := sessionId.getD ""
  let ttlDate := now - getSessionTtlMsForRole cfg role
  match findSession userId sid db.rows with
  | none => (db, ⟨false, some "missing"⟩)
  | some s =>
      if s.revoked then (db, ⟨false, some "Sesion revocada"⟩)
      else if s.lastSeen < ttlDate then (db, ⟨false, some "Sesion expirada"⟩)
      else
        let rows2 := db.rows.map (fun r => if r.rowId == s.rowId then touchUpdate now req s r else r)
        ({ rows := rows2, nextId := db.nextId }, ⟨true, none⟩)

/-- The `/api/logout` route body: revoke the caller's own session. The
route answers 400 and leaves the table alone when no session header is
present. -/
def logoutRevoke (userId : Nat) (sessionId : Option String) (db : Db) : Db :=
  if strFalsy sessionId then db else
  let sid := sessionId.getD ""
  { db with rows := db.rows.map (fun r =>
      if r.userId == userId && r.sessionId == sid then { r with revoked := true } else r) }

/-- The `/api/sessions/:sessionId/revoke` route body (admin revocation):
`UPDATE sesiones SET revoked = true WHERE session_id = $1`, across all
accounts. -/
def adminRevokeSession (sid : String) (db : Db) : Db :=
  { db with rows := db.rows.map (fun r =>
      if r.sessionId == sid then { r with revoked := true } else r) }

/-- The outcome of the `authenticateToken` middleware on the session part
of a request whose bearer token already verified. -/
inductive GateOutcome where
  | proceed
  | reject (status : Nat) (msg : String)
deriving DecidableEq

/-- The session logic of the `authenticateToken` middleware: validate, and
self-heal through `upsertSession` exactly on the `'missing'` reason. -/
def authenticateToken (cfg : Config) (user : UserInfo) (req : Req) (now : Int) (db : Db) :
    Db × GateOutcome :=
  let v := validateSession cfg user.id req.sessionId req user.role now db
  if v.2.ok then (v.1, GateOutcome.proceed)
  else if v.2.reason == some "missing" then
    let u := upsertSession cfg user req now v.1
    (u.1, GateOutcome.proceed)
  else (v.1, GateOutcome.reject 401 (v.2.reason.getD "Sesion invalida"))

/-- What the `/api/login` route reports about the session subsystem:
whether a credential token was issued and the `session` object of the
response body. The `login_logs` audit insert touches a different table and
is outside this model. -/
structure LoginResult where
  tokenIssued : Bool
  sessionId : Option String
  revokedSessions : List String
deriving DecidableEq

/-- The `/api/login` route after the user row was fetched: on a valid
password it runs `upsertSession` and issues a JWT; otherwise it answers
401 without touching the session table. -/
def loginHandler (cfg : Config) (user : UserInfo) (validPassword : Bool)
    (req : Req) (now : Int) (db : Db) : Db × LoginResult :=
  if validPassword then
    let u := upsertSession cfg user req now db
    (u.1, ⟨true, u.2.sessionId, u.2.revokedSessions⟩)
  else (db, ⟨false, none, []⟩)

/-! ### Sequential operation model

The claims quantify over sequences of sequentially executed operations of
the subsystem; `Op` lists those operations and `runOps` executes a timed
trace of them. -/

inductive Op where
  | upsert (user : UserInfo) (req : Req)
  | validate (user : UserInfo) (sessionId : Option String) (req : Req)
  | logout (userId : Nat) (sessionId : Option String)
  | adminRevoke (sid : String)
deriving DecidableEq

def applyOp (cfg : Config) (now : Int) (op : Op) (db : Db) : Db :=
  match op with
  | Op.upsert user req => (upsertSession cfg user req now db).1
  | Op.validate user sid req => (validateSession cfg user.id sid req user.role now db).1
  | Op.logout uid sid => logoutRevoke uid sid db
  | Op.adminRevoke sid => adminRevokeSession sid db

def runOps (cfg : Config) : Db → List (Int × Op) → Db
  | db, [] => db
  | db, (t, op) :: rest => runOps cfg (applyOp cfg t op db) rest

/-- The time of the last operation of a trace (the start time for an empty
trace). -/
def lastTime (t0 : Int) : List (Int × Op) → Int
  | [] => t0
  | (t, _) :: rest => lastTime t rest

/-- The number of rows of an account that are simultaneously
`revoked = false` and fresh (`last_seen` within `TTL(role)` of `now`). -/
def countActive (cfg : Config) (uid : Nat) (role : String) (now : Int) (db : Db) : Nat :=
  (activeRows uid (now - getSessionTtlMsForRole cfg role) db.rows).length

/-- Whether the trace times are non-decreasing starting from `t0`. -/
def chainLe (t0 : Int) : List Int → Bool
  | [] => true
  | t :: rest => decide (t0 ≤ t) && chainLe t rest

/-- Every operation aimed at account `uid` carries role `roleR` (the
account's role, as the JWT of that account would). -/
def opConsistentB (uid : Nat) (roleR : String) : Op → Bool
  | Op.upsert u _ => !(u.id == uid) || (u.role == roleR)
  | Op.validate u _ _ => !(u.id == uid) || (u.role == roleR)
  | _ => true

/-- Whether an admission call would reach the renewal branch on a row that
is already revoked (and hence resurrect it). -/
def resurrectsB (cfg : Config) (user : UserInfo) (req : Req) (now : Int) (db : Db) : Bool :=
  !strFalsy req.sessionId &&
    (match findSession user.id (req.sessionId.getD "") (upsertPruned cfg user now db) with
     | some ex => ex.revoked
     | none => false)

/-- No admission call of the trace aimed at account `uid` renews a revoked
row, checked against the state the call actually sees. -/
def noResurrectB (cfg : Config) (uid : Nat) : Db → List (Int × Op) → Bool
  | _, [] => true
  | db, (t, op) :: rest =>
      (match op with
       | Op.upsert u req => !(u.id == uid) || !(resurrectsB cfg u req t db)
       | _ => true) && noResurrectB cfg uid (applyOp cfg t op db) rest

/-- Structural well-formedness of the table: distinct SERIAL keys, all
below the counter. Holds in every state reachable from `emptyDb`. -/
def dbWF (db : Db) : Prop :=
  (db.rows.map (fun r => r.rowId)).Nodup ∧ ∀ r ∈ db.rows, r.rowId < db.nextId

/-! ### Client mirror (frontend `App.jsx`)

The per-browser replica of the admission policy: `pruneSessions` and
`registerSessionForUser`, over the `activeSessionsByUser` localStorage
entry. `Array.prototype.sort` is stable, so the sort is the same stable
insertion sort keyed on `lastSeen`. -/

/-- One entry of the localStorage / mirror session list. -/
structure ClientSession where
  id : String
  deviceId : String
  role : String
  userAgent : String
  startedAt : Int
  lastSeen : Int
deriving DecidableEq

/-- `SESSION_TTL_MS` of `App.jsx`: a fixed 10 minutes for every role. -/
def CLIENT_SESSION_TTL_MS : Int := 10 * 60 * 1000

/-- The filter of `pruneSessions`: `s && s.id && s.lastSeen &&
(now - s.lastSeen) < SESSION_TTL_MS` (truthiness of `id` and `lastSeen`
included). -/
def clientFresh (now : Int) (s : ClientSession) : Bool :=
  !(s.id == "") && !(s.lastSeen == 0) && decide (now - s.lastSeen < CLIENT_SESSION_TTL_MS)

def pruneSessions (l : List ClientSession) (now : Int) : List ClientSession :=
  l.filter (clientFresh now)

/-- `normalizeRole`: lowercase. -/
def normalizeRole (role : String) : String := lowerStr role

/-- The client-side limit: computed on the lowercased role, unlike the
server's case-sensitive comparison. -/
def clientLimitForRole (role : String) : Nat :=
  if normalizeRole role == "admin" then 2 else 1

/-- Stable insertion keyed on `lastSeen` for client sessions. -/
def insClient (x : ClientSession) : List ClientSession → List ClientSession
  | [] => [x]
  | y :: ys => if x.lastSeen ≤ y.lastSeen then x :: y :: ys else y :: insClient x ys

/-- The stable `nextList.sort((a, b) => a.lastSeen - b.lastSeen)`. -/
def sortClient : List ClientSession → List ClientSession
  | [] => []
  | x :: xs => insClient x (sortClient xs)

/-- Update the first matching entry, modelling
`nextList[existingIndex] = { ...entry, deviceId, role, lastSeen: now }`. -/
def setFirstClient (p : ClientSession → Bool) (f : ClientSession → ClientSession) :
    List ClientSession → List ClientSession
  | [] => []
  | s :: rest => if p s then f s :: rest else s :: setFirstClient p f rest

/-- The result object of `registerSessionForUser` (the `allowed: true`
field is constant in the code and omitted). -/
structure RegisterResult where
  sessionId : String
  kickedSessionId : Option String
  limit : Nat
deriving DecidableEq

/-- `registerSessionForUser` from `App.jsx`, for one user key: returns the
new session list for that user and the result object. -/
def registerSessionForUser (store : List ClientSession)
    (sessionId deviceId userAgent role : String) (now : Int) :
    List ClientSession × RegisterResult :=
  let role' := normalizeRole role
  let lim := clientLimitForRole role
  let current := pruneSessions store now
  if current.any (fun s => s.id == sessionId) then
    (setFirstClient (fun s => s.id == sessionId)
       (fun s => { s with deviceId := deviceId, role := role', lastSeen := now }) current,
     ⟨sessionId, none, lim⟩)
  else
    let newSession : ClientSession :=
      { id := sessionId, deviceId := deviceId, role := role',
        userAgent := userAgent, startedAt := now, lastSeen := now }
    if lim ≤ current.length then
      let sorted := sortClient current
      let kicked := match sorted with
        | [] => none
        | r :: _ => if r.id == "" then none else some r.id
      (sorted.tail ++ [newSession], ⟨sessionId, kicked, lim⟩)
    else
      (current ++ [newSession], ⟨sessionId, none, lim⟩)

/-- The projection of a server row into the mirror's shape, preserving the
token and the timestamps. -/
def mirrorOf (role : String) (s : SessionRow) : ClientSession :=
  { id := s.sessionId, deviceId := (s.deviceId).getD "", role := role,
    userAgent := (s.userAgent).getD "", startedAt := s.startedAt, lastSeen := s.lastSeen }

/-! ### Concrete scenario data used by counterexamples and witnesses -/

/-- The non-admin account of the scenarios. -/
def userU : UserInfo := ⟨1, "user"⟩

/-- The admin account of the scenarios. -/
def userA : UserInfo := ⟨1, "admin"⟩

/-- A request carrying session token `sid`. -/
def reqOf (sid : String) : Req := ⟨some sid, some "dev", none, "ua"⟩

/-- A request with no `x-session-id` header. -/
def reqNoSid : Req := ⟨none, some "dev", none, "ua"⟩

/-- Admit token S1, then log it out: leaves a fresh revoked row. -/
def traceRevoked : List (Int × Op) :=
  [(0, Op.upsert userU (reqOf "S1")), (1, Op.logout 1 (some "S1"))]

def dbRevoked : Db := runOps defaultConfig emptyDb traceRevoked

/-- Continue: admit S2, then admit S1 again — the renewal branch
resurrects the revoked S1 row next to the active S2 row. -/
def traceResurrect : List (Int × Op) :=
  traceRevoked ++ [(2, Op.upsert userU (reqOf "S2")), (3, Op.upsert userU (reqOf "S1"))]

def dbResurrect : Db := runOps defaultConfig emptyDb traceResurrect

/-- A fresh, non-revoked admin session row. -/
def adminRow (i : Nat) (sid : String) (ls : Int) : SessionRow :=
  ⟨i, 1, sid, some "dev", none, some "ua", ls, ls, false⟩

/-- Two admin sessions last seen 20 minutes ago (at `now = 10000000`):
fresh for the server's 30-day admin TTL, stale for the mirror's fixed
10-minute TTL. -/
def dbStaleMirror : Db := ⟨[adminRow 1 "S1" 8800000, adminRow 2 "S2" 8800001], 3⟩

/-- The mirror's copy of the same two admin sessions. -/
def storeStaleMirror : List ClientSession :=
  (dbStaleMirror.rows).map (mirrorOf "admin")

/-- A non-revoked row last seen at time 0. -/
def staleRow : SessionRow :=
  ⟨1, 1, "S1", some "dev", none, some "ua", 0, 0, false⟩

/-- A table holding only `staleRow`; at `now = 10000000` with the 10-minute
default TTL the row is expired. -/
def dbExpired : Db := ⟨[staleRow], 2⟩

/-- A non-revoked row last seen at time 9999000 — fresh at `now = 10000000`. -/
def freshRow : SessionRow :=
  ⟨1, 1, "S1", some "dev", none, some "ua", 9999000, 9999000, false⟩

/-- A table holding only `freshRow`. -/
def dbFresh : Db := ⟨[freshRow], 2⟩

/-- Two fresh admin sessions (last seen 1000 and 500 ms before
`now = 10000000`), fresh under both the server's and the mirror's TTL. -/
def dbFreshPair : Db := ⟨[adminRow 1 "S1" 9999000, adminRow 2 "S2" 9999500], 3⟩

/-- The renewal exception of the revocation-terminality claim: the
operation is an admission for exactly this row's (account, token) pair,
which reaches the `revoked = false` renewal `UPDATE`. -/
def renewsTarget (op : Op) (r : SessionRow) : Prop :=
  match op with
  | Op.upsert u req =>
      strFalsy req.sessionId = false ∧ u.id = r.userId ∧ req.sessionId.getD "" = r.sessionId
  | _ => False

end CQ

namespace CQ

/-! ### Generic list lemmas -/

lemma len_filter_le_of_imp {α : Type} (p q : α → Bool) (l : List α) :
    (∀ a ∈ l, p a = true → q a = true) →
      (List.filter p l).length ≤ (List.filter q l).length := by
  induction l with
  | nil => intro _; simp
  | cons a l ih =>
    intro h
    have hl : ∀ x ∈ l, p x = true → q x = true :=
      fun x hx hpx => h x (List.mem_cons_of_mem a hx) hpx
    have ihl := ih hl
    by_cases hp : p a = true
    · have hq : q a = true := h a (List.mem_cons_self a l) hp
      simp only [List.filter_cons, hp, hq, if_true, List.length_cons]
      omega
    · simp only [List.filter_cons, if_neg hp]
      by_cases hq : q a = true
      · simp only [hq, if_true, List.length_cons]; omega
      · simp only [if_neg hq]; exact ihl

lemma len_filter_map {α β : Type} (f : α → β) (p : β → Bool) (l : List α) :
    ((l.map f).filter p).length = (l.filter (fun a => p (f a))).length := by
  induction l with
  | nil => rfl
  | cons a l ih =>
    by_cases hp : p (f a) = true <;>
      simp only [List.map_cons, List.filter_cons, hp, if_true, if_false,
        Bool.false_eq_true, List.length_cons, ih]

lemma filter_congr_mem {α : Type} (p q : α → Bool) (l : List α) :
    (∀ a ∈ l, p a = q a) → l.filter p = l.filter q := by
  induction l with
  | nil => intro _; rfl
  | cons a l ih =>
    intro h
    have ha := h a (List.mem_cons_self a l)
    have hl := fun x hx => h x (List.mem_cons_of_mem a hx)
    simp only [List.filter_cons, ha, ih hl]

lemma len_filter_add_not {α : Type} (p : α → Bool) (l : List α) :
    (l.filter p).length + (l.filter (fun a => !(p a))).length = l.length := by
  induction l with
  | nil => rfl
  | cons a l ih =>
    cases hp : p a <;> simp [List.filter_cons, hp] <;> omega

lemma filter_all_keep {α : Type} (p : α → Bool) (l : List α) :
    (∀ a ∈ l, p a = true) → l.filter p = l := by
  induction l with
  | nil => intro _; rfl
  | cons a l ih =>
    intro h
    have ha := h a (List.mem_cons_self a l)
    simp only [List.filter_cons, ha, if_true]
    rw [ih (fun x hx => h x (List.mem_cons_of_mem a hx))]

lemma find?_none_of_all {α : Type} (p : α → Bool) (l : List α) :
    (∀ a ∈ l, p a = false) → l.find? p = none := by
  induction l with
  | nil => intro _; rfl
  | cons a l ih =>
    intro h
    have ha := h a (List.mem_cons_self a l)
    simp only [List.find?_cons, ha]
    exact ih (fun x hx => h x (List.mem_cons_of_mem a hx))

lemma any_false_of_all {α : Type} (p : α → Bool) (l : List α) :
    (∀ a ∈ l, p a = false) → l.any p = false := by
  induction l with
  | nil => intro _; rfl
  | cons a l ih =>
    intro h
    have ha := h a (List.mem_cons_self a l)
    simp only [List.any_cons, ha, Bool.false_or]
    exact ih (fun x hx => h x (List.mem_cons_of_mem a hx))

lemma nodup_key_inj (l : List SessionRow) :
    (l.map (fun r => r.rowId)).Nodup →
      ∀ a ∈ l, ∀ b ∈ l, a.rowId = b.rowId → a = b := by
  induction l with
  | nil => intro _ a ha; exact absurd ha (List.not_mem_nil a)
  | cons x l ih =>
    intro hnd a ha b hb hab
    simp only [List.map_cons, List.nodup_cons] at hnd
    obtain ⟨hx, hl⟩ := hnd
    rcases List.mem_cons.mp ha with rfl | ha'
    · rcases List.mem_cons.mp hb with rfl | hb'
      · rfl
      · have hmem : b.rowId ∈ l.map (fun r => r.rowId) :=
          List.mem_map_of_mem (fun r => r.rowId) hb'
        rw [← hab] at hmem
        exact absurd hmem hx
    · rcases List.mem_cons.mp hb with rfl | hb'
      · have hmem : a.rowId ∈ l.map (fun r => r.rowId) :=
          List.mem_map_of_mem (fun r => r.rowId) ha'
        rw [hab] at hmem
        exact absurd hmem hx
      · exact ih hl a ha' b hb' hab

lemma nodup_append_single {α : Type} (l : List α) (a : α) :
    l.Nodup → a ∉ l → (l ++ [a]).Nodup := by
  induction l with
  | nil => intro _ _; exact List.nodup_cons.mpr ⟨List.not_mem_nil a, List.nodup_nil⟩
  | cons x l ih =>
    intro hnd hna
    have hx : x ∉ l := (List.nodup_cons.mp hnd).1
    have hl : l.Nodup := (List.nodup_cons.mp hnd).2
    have hax : a ≠ x := fun h => hna (h ▸ List.mem_cons_self x l)
    rw [List.cons_append]
    refine List.nodup_cons.mpr ⟨?_, ih hl (fun h => hna (List.mem_cons_of_mem x h))⟩
    intro hmem
    rcases List.mem_append.mp hmem with h1 | h2
    · exact hx h1
    · have hxa : x = a := by simpa using h2
      exact hax hxa.symm

/-! ### Lemmas about the stable sort and the eviction loop -/

lemma length_insLS (x : SessionRow) (l : List SessionRow) :
    (insLS x l).length = l.length + 1 := by
  induction l with
  | nil => rfl
  | cons y ys ih =>
    by_cases h : x.lastSeen ≤ y.lastSeen
    · simp [insLS, h]
    · simp [insLS, h, ih]

lemma length_sortLS (l : List SessionRow) : (sortLS l).length = l.length := by
  induction l with
  | nil => rfl
  | cons x xs ih => simp [sortLS, length_insLS, ih]

lemma insLS_perm (x : SessionRow) (l : List SessionRow) :
    List.Perm (insLS x l) (x :: l) := by
  induction l with
  | nil => exact List.Perm.refl _
  | cons y ys ih =>
    by_cases h : x.lastSeen ≤ y.lastSeen
    · simp only [insLS, if_pos h]
      exact List.Perm.refl _
    · simp only [insLS, if_neg h]
      exact List.Perm.trans (List.Perm.cons y ih) (List.Perm.swap x y ys)

lemma sortLS_perm (l : List SessionRow) : List.Perm (sortLS l) l := by
  induction l with
  | nil => exact List.Perm.refl _
  | cons x xs ih =>
    exact List.Perm.trans (insLS_perm x (sortLS xs)) (List.Perm.cons x ih)

lemma sortLS_min (l : List SessionRow) :
    ∀ v t, sortLS l = v :: t →
      v ∈ l ∧ (∀ x ∈ l, v.lastSeen ≤ x.lastSeen) ∧
      (List.Pairwise (fun a b => a.startedAt ≤ b.startedAt) l →
        ∀ x ∈ l, x.lastSeen = v.lastSeen → v.startedAt ≤ x.startedAt) := by
  induction l with
  | nil => intro v t h; cases h
  | cons a as ih =>
    intro v t h
    cases hs : sortLS as with
    | nil =>
      have has : as = [] := by
        have hlen := length_sortLS as
        rw [hs] at hlen
        exact List.length_eq_zero.mp hlen.symm
      subst has
      simp only [sortLS, insLS] at h
      obtain ⟨rfl, rfl⟩ : a = v ∧ ([] : List SessionRow) = t := by
        injection h with h1 h2; exact ⟨h1, h2⟩
      refine ⟨List.mem_cons_self _ _, ?_, ?_⟩
      · intro x hx
        rcases List.mem_cons.mp hx with rfl | hx'
        · exact le_refl _
        · exact absurd hx' (List.not_mem_nil x)
      · intro _ x hx hxeq
        rcases List.mem_cons.mp hx with rfl | hx'
        · exact le_refl _
        · exact absurd hx' (List.not_mem_nil x)
    | cons b bs =>
      obtain ⟨hbmem, hbmin, hbtie⟩ := ih b bs hs
      rw [show sortLS (a :: as) = insLS a (sortLS as) from rfl, hs] at h
      by_cases hle : a.lastSeen ≤ b.lastSeen
      · rw [show insLS a (b :: bs) = if a.lastSeen ≤ b.lastSeen then a :: b :: bs
              else b :: insLS a bs from rfl, if_pos hle] at h
        obtain ⟨rfl, rfl⟩ : a = v ∧ b :: bs = t := by
          injection h with h1 h2; exact ⟨h1, h2⟩
        refine ⟨List.mem_cons_self _ _, ?_, ?_⟩
        · intro x hx
          rcases List.mem_cons.mp hx with rfl | hx'
          · exact le_refl _
          · exact le_trans hle (hbmin x hx')
        · intro hp x hx _
          rcases List.mem_cons.mp hx with rfl | hx'
          · exact le_refl _
          · exact (List.pairwise_cons.mp hp).1 x hx'
      · rw [show insLS a (b :: bs) = if a.lastSeen ≤ b.lastSeen then a :: b :: bs
              else b :: insLS a bs from rfl, if_neg hle] at h
        obtain ⟨rfl, rfl⟩ : b = v ∧ insLS a bs = t := by
          injection h with h1 h2; exact ⟨h1, h2⟩
        have hblt : b.lastSeen < a.lastSeen := lt_of_not_le hle
        refine ⟨List.mem_cons_of_mem a hbmem, ?_, ?_⟩
        · intro x hx
          rcases List.mem_cons.mp hx with rfl | hx'
          · exact le_of_lt hblt
          · exact hbmin x hx'
        · intro hp x hx hxeq
          rcases List.mem_cons.mp hx with rfl | hx'
          · exact absurd hxeq (ne_of_gt hblt)
          · exact hbtie (List.pairwise_cons.mp hp).2 x hx' hxeq

lemma evictList_sublist (lim : Nat) (l : List SessionRow) :
    (evictList lim l).Sublist l := by
  induction l with
  | nil => simp [evictList]
  | cons r rest ih =>
    by_cases h : lim ≤ rest.length + 1
    · simp only [evictList, if_pos h]
      exact List.Sublist.cons₂ r ih
    · simp only [evictList, if_neg h]
      exact List.nil_sublist _

lemma evictList_length_bound (lim : Nat) (hlim : 1 ≤ lim) (l : List SessionRow) :
    l.length ≤ (evictList lim l).length + (lim - 1) := by
  induction l with
  | nil => simp
  | cons r rest ih =>
    by_cases h : lim ≤ rest.length + 1
    · rw [show evictList lim (r :: rest) = r :: evictList lim rest from by
        simp [evictList, h]]
      simp only [List.length_cons]
      omega
    · rw [show evictList lim (r :: rest) = [] from by simp [evictList, h]]
      simp only [List.length_nil, List.length_cons]
      omega

lemma evictList_of_length_eq (lim : Nat) (l : List SessionRow) (h : l.length = lim) :
    evictList lim l = l.take 1 := by
  cases l with
  | nil => simp [evictList]
  | cons r rest =>
    have h1 : lim ≤ rest.length + 1 := by
      simp only [List.length_cons] at h
      omega
    simp only [evictList, if_pos h1]
    cases rest with
    | nil => simp [evictList]
    | cons y ys =>
      have h2 : ¬ lim ≤ ys.length + 1 := by
        simp only [List.length_cons] at h
        omega
      simp [evictList, h2, List.take]

end CQ

namespace CQ

/-! ### Claim C1 — bound invariant: counterexample -/

/-- C1 counterexample. The claim says the number of rows of an account with
`revoked = false` and `last_seen` within `TTL(role)` of the current time
never exceeds `limit(role)` after each sequentially executed operation.
The trace admit S1, logout S1, admit S2, admit S1 (all for the same
non-admin account, within the TTL window) ends with 2 active fresh rows
while the role limit is 1: the renewal branch of `upsertSession` resets
`revoked = false` on the logged-out S1 row and resurrects it next to the
active S2 row. -/
theorem c1_bound_counterexample :
    limitForRole "user" = 1 ∧
    countActive defaultConfig 1 "user" 3 dbResurrect = 2 := by
  decide

/-! ### Claim C2 — revoked is terminal: counterexample -/

/-- C2 counterexample. After admit S1 then logout S1 the row for
(account 1, "S1") has `revoked = true`; calling `upsertSession` with the
same pair resets it to `revoked = false`, so `revoked` is not terminal. -/
theorem c2_terminal_counterexample :
    (findSession 1 "S1" dbRevoked.rows).map (fun r => r.revoked) = some true ∧
    ((findSession 1 "S1"
        (upsertSession defaultConfig userU (reqOf "S1") 2 dbRevoked).1.rows).map
      (fun r => r.revoked)) = some false := by
  decide

/-! ### Claim C3 — renewal is not eviction: counterexample -/

/-- C3 counterexample. A row for (account 1, "S1") exists (revoked by the
earlier logout), so by the claim re-admitting "S1" should leave the active
count unchanged; the renewal branch resurrects the row and the active
count changes from 0 to 1. -/
theorem c3_renewal_counterexample :
    (findSession 1 "S1" dbRevoked.rows).isSome = true ∧
    countActive defaultConfig 1 "user" 2 dbRevoked = 0 ∧
    (upsertSession defaultConfig userU (reqOf "S1") 2 dbRevoked).2 = ⟨some "S1", []⟩ ∧
    countActive defaultConfig 1 "user" 2
      (upsertSession defaultConfig userU (reqOf "S1") 2 dbRevoked).1 = 1 := by
  decide

/-! ### Claim C4 — LRU eviction: counterexample -/

/-- C4 counterexample. In `dbResurrect` account 1 (limit 1) holds two
active fresh rows (S2 with `last_seen = 2`, S1 with `last_seen = 3`, a
state reached through the resurrection trace). Admitting the unseen token
S3 revokes BOTH rows — the `while (rows.length >= limit)` loop keeps
evicting until fewer than `limit` remain — whereas the claim says exactly
the single least-recently-used row (S2) is marked revoked. -/
theorem c4_lru_counterexample :
    findSession 1 "S3" dbResurrect.rows = none ∧
    (upsertActive defaultConfig userU 4 dbResurrect).length = 2 ∧
    limitForRole "user" = 1 ∧
    (upsertSession defaultConfig userU (reqOf "S3") 4 dbResurrect).2.revokedSessions
      = ["S2", "S1"] := by
  decide

/-! ### Claim C5 — the missing reason: counterexample -/

/-- C5 counterexample. The claim says `validate` returns reason
`"missing"` exactly when no token was supplied, and only then the gate
self-heals. In the code: with no token at all the reason is
`"Sesion requerida"` and the gate rejects with 401; with a supplied but
unknown token the reason is `"missing"` and the gate silently admits a
fresh session (the row for "S9" appears) and proceeds. -/
theorem c5_missing_counterexample :
    (validateSession defaultConfig 1 none reqNoSid "user" 0 emptyDb).2
      = ⟨false, some "Sesion requerida"⟩ ∧
    (validateSession defaultConfig 1 (some "S9") (reqOf "S9") "user" 0 emptyDb).2
      = ⟨false, some "missing"⟩ ∧
    authenticateToken defaultConfig userU reqNoSid 0 emptyDb
      = (emptyDb, GateOutcome.reject 401 "Sesion requerida") ∧
    (authenticateToken defaultConfig userU (reqOf "S9") 0 emptyDb).2
      = GateOutcome.proceed ∧
    ((authenticateToken defaultConfig userU (reqOf "S9") 0 emptyDb).1.rows.map
        (fun r => r.sessionId)) = ["S9"] := by
  decide

/-! ### Claim C6 — revocation is terminal for validation -/

/-- C6: for every session row with `revoked = true`, `validateSession`
fails with the revoked reason and leaves the table unchanged, regardless
of how recent `last_seen` is (the row and its `lastSeen` are arbitrary, so
in particular a row touched with a fresh timestamp just before the
revocation still fails). -/
theorem c6_revoked_terminal (cfg : Config) (uid : Nat) (sid : String) (req : Req)
    (role : String) (now : Int) (db : Db) (s : SessionRow)
    (hsid : sid ≠ "")
    (hfind : findSession uid sid db.rows = some s)
    (hrev : s.revoked = true) :
    validateSession cfg uid (some sid) req role now db
      = (db, ⟨false, some "Sesion revocada"⟩) := by
  have hf : strFalsy (some sid) = false := by
    simp [strFalsy, hsid]
  simp only [validateSession, hf, Bool.false_eq_true, if_false, Option.getD_some,
    hfind, hrev, if_true]

/-- C6 witness: the revoked S1 row of the concrete logout scenario fails
validation at time 5 even though its data is otherwise intact. -/
theorem c6_revoked_terminal_witness :
    validateSession defaultConfig 1 (some "S1") (reqOf "S1") "user" 5 dbRevoked
      = (dbRevoked, ⟨false, some "Sesion revocada"⟩) :=
  c6_revoked_terminal defaultConfig 1 "S1" (reqOf "S1") "user" 5 dbRevoked
    ⟨1, 1, "S1", some "dev", none, some "ua", 0, 0, true⟩
    (by decide) (by decide) (by decide)

/-! ### Claim C7 — expiry excludes without deleting meaning -/

/-- C7: a non-revoked row whose `last_seen` is older than `TTL(role)`
relative to the current time fails `validateSession` with the expired
reason (table unchanged), and such a row is excluded from the active set
that the admission decision counts against `limit(role)` (the
`revoked = false AND last_seen >= now - TTL` query), in any table. -/
theorem c7_expired_excluded (cfg : Config) (uid : Nat) (sid : String) (req : Req)
    (role : String) (now : Int) (db : Db) (s : SessionRow)
    (hsid : sid ≠ "")
    (hfind : findSession uid sid db.rows = some s)
    (hrev : s.revoked = false)
    (hexp : s.lastSeen < now - getSessionTtlMsForRole cfg role) :
    validateSession cfg uid (some sid) req role now db
      = (db, ⟨false, some "Sesion expirada"⟩) ∧
    ∀ l : List SessionRow, s ∉ activeRows uid (now - getSessionTtlMsForRole cfg role) l := by
  constructor
  · have hf : strFalsy (some sid) = false := by
      simp [strFalsy, hsid]
    simp only [validateSession, hf, Bool.false_eq_true, if_false, Option.getD_some,
      hfind, hrev, if_true, hexp, decide_True, if_pos]
  · intro l hmem
    have hpred := (List.mem_filter.mp hmem).2
    simp only [activePredT, Bool.and_eq_true, decide_eq_true_eq] at hpred
    omega

/-- C7 witness: a concrete stale row (last seen at 0, validated at
10000000 with a 10-minute TTL) fails with the expired reason and is
absent from its own table's active set. -/
theorem c7_expired_excluded_witness :
    validateSession defaultConfig 1 (some "S1") (reqOf "S1") "user" 10000000 dbExpired
      = (dbExpired, ⟨false, some "Sesion expirada"⟩) ∧
    staleRow ∉ activeRows 1 (10000000 - getSessionTtlMsForRole defaultConfig "user")
      dbExpired.rows := by
  have h := c7_expired_excluded defaultConfig 1 "S1" (reqOf "S1") "user" 10000000 dbExpired
    staleRow (by decide) (by decide) (by decide) (by decide)
  exact ⟨h.1, h.2 dbExpired.rows⟩

end CQ

namespace CQ

/-! ### Claim C8 — the implicit touch and its frame -/

/-- C8: a successful `validateSession` performs exactly the implicit touch:
the table becomes the pointwise update of the matched row (identified by
its id), the update sets `last_seen` to the current time and at most the
diagnostic metadata (`ip_address`, `user_agent`, `device_id`), while
`revoked`, `started_at`, `user_id`, `session_id` and the key are
unchanged; every row with a different id — of any account — is still in
the table unchanged; and the touched `last_seen` does not decrease
whenever the clock is at or after the row's previous `last_seen`. -/
theorem c8_touch_frame (cfg : Config) (uid : Nat) (sid : String) (req : Req)
    (role : String) (now : Int) (db : Db) (s : SessionRow)
    (hsid : sid ≠ "")
    (hfind : findSession uid sid db.rows = some s)
    (hrev : s.revoked = false)
    (hfresh : now - getSessionTtlMsForRole cfg role ≤ s.lastSeen) :
    validateSession cfg uid (some sid) req role now db
      = ({ rows := db.rows.map (fun r => if r.rowId == s.rowId then touchUpdate now req s r else r),
           nextId := db.nextId }, ⟨true, none⟩) ∧
    (∀ r : SessionRow,
        (touchUpdate now req s r).revoked = r.revoked ∧
        (touchUpdate now req s r).startedAt = r.startedAt ∧
        (touchUpdate now req s r).userId = r.userId ∧
        (touchUpdate now req s r).sessionId = r.sessionId ∧
        (touchUpdate now req s r).rowId = r.rowId ∧
        (touchUpdate now req s r).lastSeen = now) ∧
    (∀ r ∈ db.rows, r.rowId ≠ s.rowId →
        r ∈ (validateSession cfg uid (some sid) req role now db).1.rows) ∧
    (s.lastSeen ≤ now → s.lastSeen ≤ (touchUpdate now req s s).lastSeen) := by
  have hf : strFalsy (some sid) = false := by
    simp [strFalsy, hsid]
  have hnl : ¬ s.lastSeen < now - getSessionTtlMsForRole cfg role := not_lt.mpr hfresh
  have hmain : validateSession cfg uid (some sid) req role now db
      = ({ rows := db.rows.map (fun r => if r.rowId == s.rowId then touchUpdate now req s r else r),
           nextId := db.nextId }, ⟨true, none⟩) := by
    simp only [validateSession, hf, Bool.false_eq_true, if_false, Option.getD_some,
      hfind, hrev, hnl, if_false, Bool.true_eq_false]
  refine ⟨hmain, ?_, ?_, ?_⟩
  · intro r
    exact ⟨rfl, rfl, rfl, rfl, rfl, rfl⟩
  · intro r hr hne
    rw [hmain]
    refine List.mem_map.mpr ⟨r, hr, ?_⟩
    simp [hne]
  · intro _
    exact le_of_eq rfl |>.trans (le_refl _) |>.trans (by simp [touchUpdate]; omega)

/-- C8 witness: the concrete fresh row of `dbFresh` validates successfully
at `now = 10000000` and the result is exactly the touch update. -/
theorem c8_touch_frame_witness :
    (validateSession defaultConfig 1 (some "S1") (reqOf "S1") "user" 10000000 dbFresh).2
      = ⟨true, none⟩ ∧
    freshRow.lastSeen ≤ (touchUpdate 10000000 (reqOf "S1") freshRow freshRow).lastSeen := by
  have h := c8_touch_frame defaultConfig 1 "S1" (reqOf "S1") "user" 10000000 dbFresh
    freshRow (by decide) (by decide) (by decide) (by decide)
  exact ⟨by rw [h.1], h.2.2.2 (by decide)⟩

/-! ### Claim C10 — login with valid credentials but no session header -/

/-- C10: when a login carries valid credentials but no session header,
`upsertSession` returns before touching the table, so the login issues the
credential token, inserts no row, revokes nothing, reports
`session_id = null` with an empty `revoked_sessions` list, and the table —
hence every account's admission count — is unchanged. -/
theorem c10_login_no_header (cfg : Config) (user : UserInfo) (req : Req)
    (now : Int) (db : Db)
    (hfalsy : strFalsy req.sessionId = true) :
    loginHandler cfg user true req now db = (db, ⟨true, none, []⟩) := by
  simp [loginHandler, upsertSession, hfalsy]

/-- C10 witness: a concrete header-less login against the empty table. -/
theorem c10_login_no_header_witness :
    loginHandler defaultConfig userU true reqNoSid 7 emptyDb
      = (emptyDb, ⟨true, none, []⟩) :=
  c10_login_no_header defaultConfig userU reqNoSid 7 emptyDb (by decide)

end CQ

namespace CQ

/-! ### Claim C5 — amended -/

/-- C5 amended: `validateSession` returns reason `"missing"` exactly when
a token WAS supplied but no session row exists for it; in exactly that
case the Auth Gate self-heals by silently admitting a fresh session and
letting the request proceed; when no token is supplied at all the reason
is `"Sesion requerida"` and the gate rejects with 401. -/
theorem c5_missing_amended :
    (∀ (cfg : Config) (uid : Nat) (sidOpt : Option String) (req : Req) (role : String)
        (now : Int) (db : Db),
      (validateSession cfg uid sidOpt req role now db).2.reason = some "missing"
        ↔ (strFalsy sidOpt = false ∧ findSession uid (sidOpt.getD "") db.rows = none)) ∧
    (∀ (cfg : Config) (user : UserInfo) (req : Req) (now : Int) (db : Db),
      strFalsy req.sessionId = true →
      authenticateToken cfg user req now db
        = (db, GateOutcome.reject 401 "Sesion requerida")) ∧
    (∀ (cfg : Config) (user : UserInfo) (req : Req) (now : Int) (db : Db),
      strFalsy req.sessionId = false →
      findSession user.id (req.sessionId.getD "") db.rows = none →
      authenticateToken cfg user req now db
        = ((upsertSession cfg user req now db).1, GateOutcome.proceed)) := by
  refine ⟨?_, ?_, ?_⟩
  · intro cfg uid sidOpt req role now db
    by_cases hsf : strFalsy sidOpt = true
    · simp [validateSession, hsf]
    · have hsf' : strFalsy sidOpt = false := by
        cases h : strFalsy sidOpt
        · rfl
        · exact absurd h hsf
      cases hfind : findSession uid (sidOpt.getD "") db.rows with
      | none => simp [validateSession, hsf', hfind]
      | some s =>
        by_cases hrev : s.revoked = true
        · simp [validateSession, hsf', hfind, hrev]
        · by_cases hexp : s.lastSeen < now - getSessionTtlMsForRole cfg role
          · simp [validateSession, hsf', hfind, hrev, hexp]
          · simp [validateSession, hsf', hfind, hrev, hexp]
  · intro cfg user req now db hsf
    have hv : validateSession cfg user.id req.sessionId req user.role now db
        = (db, ⟨false, some "Sesion requerida"⟩) := by
      simp [validateSession, hsf]
    have hbe : ((some "Sesion requerida" : Option String) == some "missing") = false := by
      decide
    simp [authenticateToken, hv, hbe]
  · intro cfg user req now db hsf hfind
    have hv : validateSession cfg user.id req.sessionId req user.role now db
        = (db, ⟨false, some "missing"⟩) := by
      simp [validateSession, hsf, hfind]
    have hbe : ((some "missing" : Option String) == some "missing") = true := by
      decide
    simp [authenticateToken, hv, hbe]

/-- C5 amended witness: concrete instances of the three parts. -/
theorem c5_missing_amended_witness :
    (validateSession defaultConfig 1 (some "S8") (reqOf "S8") "user" 0 emptyDb).2.reason
      = some "missing" ∧
    authenticateToken defaultConfig userU reqNoSid 3 emptyDb
      = (emptyDb, GateOutcome.reject 401 "Sesion requerida") ∧
    authenticateToken defaultConfig userU (reqOf "S8") 3 emptyDb
      = ((upsertSession defaultConfig userU (reqOf "S8") 3 emptyDb).1,
         GateOutcome.proceed) := by
  refine ⟨?_, ?_, ?_⟩
  · exact (c5_missing_amended.1 defaultConfig 1 (some "S8") (reqOf "S8") "user" 0
      emptyDb).mpr ⟨by decide, by decide⟩
  · exact c5_missing_amended.2.1 defaultConfig userU reqNoSid 3 emptyDb (by decide)
  · exact c5_missing_amended.2.2 defaultConfig userU (reqOf "S8") 3 emptyDb
      (by decide) (by decide)

end CQ

namespace CQ

/-! ### Claim C9 — client mirror vs server admission -/

lemma insClient_map (f : SessionRow → ClientSession)
    (hf : ∀ s, (f s).lastSeen = s.lastSeen) (x : SessionRow) (l : List SessionRow) :
    insClient (f x) (l.map f) = (insLS x l).map f := by
  induction l with
  | nil => rfl
  | cons y ys ih =>
    by_cases h : x.lastSeen ≤ y.lastSeen
    · have h' : (f x).lastSeen ≤ (f y).lastSeen := by rw [hf, hf]; exact h
      simp [insClient, insLS, h, h']
    · have h' : ¬ (f x).lastSeen ≤ (f y).lastSeen := by rw [hf, hf]; exact h
      simp [insClient, insLS, h, h', ih]

lemma sortClient_map (f : SessionRow → ClientSession)
    (hf : ∀ s, (f s).lastSeen = s.lastSeen) (l : List SessionRow) :
    sortClient (l.map f) = (sortLS l).map f := by
  induction l with
  | nil => rfl
  | cons x xs ih =>
    calc sortClient ((x :: xs).map f) = insClient (f x) (sortClient (xs.map f)) := rfl
      _ = insClient (f x) ((sortLS xs).map f) := by rw [ih]
      _ = (insLS x (sortLS xs)).map f := insClient_map f hf x (sortLS xs)
      _ = (sortLS (x :: xs)).map f := rfl

/-- C9 amended: the client mirror computes the same per-role limit as the
server for every role string that is already lowercase (the server
compares the raw role, the client the lowercased one), and on a state
where the account's rows coincide with the mirror store and every row is
fresh under BOTH freshness windows, with the account exactly at the admin
limit, admitting the same unseen token makes the server and the mirror
evict the same least-recently-used session. The claim as stated is false
because the freshness windows are NOT the same: the mirror prunes with a
fixed 10-minute TTL for every role while the server uses the role TTL
(30 days for admin by default), so on the same state the two sides can
pick different eviction answers (see the counterexample). -/
theorem c9_mirror_amended :
    (∀ role : String, lowerStr role = role →
      clientLimitForRole role = limitForRole role) ∧
    (∀ (cfg : Config) (uid nid : Nat) (rows : List SessionRow) (now : Int)
        (newSid newDev newUa : String),
      newSid ≠ "" →
      (∀ r ∈ rows, r.userId = uid ∧ r.revoked = false ∧ r.sessionId ≠ newSid ∧
        r.sessionId ≠ "" ∧ r.lastSeen ≠ 0 ∧
        now - getSessionTtlMsForRole cfg "admin" ≤ r.lastSeen ∧
        now - r.lastSeen < CLIENT_SESSION_TTL_MS) →
      rows.length = limitForRole "admin" →
      ∃ v ∈ rows,
        (∀ x ∈ rows, v.lastSeen ≤ x.lastSeen) ∧
        (upsertSession cfg ⟨uid, "admin"⟩ ⟨some newSid, some newDev, none, newUa⟩ now
            ⟨rows, nid⟩).2.revokedSessions = [v.sessionId] ∧
        (registerSessionForUser (rows.map (mirrorOf "admin")) newSid newDev newUa
            "admin" now).2.kickedSessionId = some v.sessionId) := by
  constructor
  · intro role h
    unfold clientLimitForRole normalizeRole limitForRole
    rw [h]
  · intro cfg uid nid rows now newSid newDev newUa hnew hrows hlen
    have hsf : strFalsy (some newSid) = false := by simp [strFalsy, hnew]
    -- the server-side prune keeps every row
    have hpruned : upsertPruned cfg ⟨uid, "admin"⟩ now ⟨rows, nid⟩ = rows := by
      apply filter_all_keep
      intro r hr
      have h7 := (hrows r hr).2.2.2.2.2.1
      have : ¬ (r.lastSeen < upsertTtlDate cfg ⟨uid, "admin"⟩ now) := by
        simp only [upsertTtlDate]
        omega
      simp [this]
    -- the token is unseen
    have hfind : findSession uid newSid rows = none := by
      apply find?_none_of_all
      intro r hr
      have h3 := (hrows r hr).2.2.1
      have : (r.sessionId == newSid) = false := by
        simp [h3]
      simp [this]
    -- the active set is the whole row list
    have hactive : upsertActive cfg ⟨uid, "admin"⟩ now ⟨rows, nid⟩ = rows := by
      rw [upsertActive, hpruned]
      apply filter_all_keep
      intro r hr
      obtain ⟨h1, h2, -, -, -, h6, -⟩ := hrows r hr
      simp only [activePredT, upsertTtlDate, h1, h2]
      simp
      omega
    -- the sorted active set is nonempty
    have hlim : 1 ≤ limitForRole "admin" := by decide
    have hslen : (sortLS rows).length = limitForRole "admin" := by
      rw [length_sortLS, hlen]
    obtain ⟨v, t, hvt⟩ : ∃ v t, sortLS rows = v :: t := by
      cases hs : sortLS rows with
      | nil => rw [hs] at hslen; simp at hslen; omega
      | cons v t => exact ⟨v, t, rfl⟩
    obtain ⟨hvmem, hvmin, -⟩ := sortLS_min rows v t hvt
    -- the eviction loop revokes exactly the head
    have hev : evictList (limitForRole "admin") (sortLS rows) = [v] := by
      rw [evictList_of_length_eq _ _ hslen, hvt]
      rfl
    refine ⟨v, hvmem, hvmin, ?_, ?_⟩
    · -- server side
      show (upsertSession cfg ⟨uid, "admin"⟩ ⟨some newSid, some newDev, none, newUa⟩ now
          ⟨rows, nid⟩).2.revokedSessions = [v.sessionId]
      rw [upsertSession]
      simp only [hsf, Bool.false_eq_true, if_false, Option.getD_some]
      rw [show upsertPruned cfg ⟨uid, "admin"⟩ now ⟨rows, nid⟩ = rows from hpruned]
      rw [show findSession (UserInfo.mk uid "admin").id newSid rows = none from hfind]
      simp only [hactive, hev, List.map_cons, List.map_nil]
    · -- client side
      have hmf : ∀ s : SessionRow, (mirrorOf "admin" s).lastSeen = s.lastSeen :=
        fun s => rfl
      have hcprune : pruneSessions (rows.map (mirrorOf "admin")) now
          = rows.map (mirrorOf "admin") := by
        apply filter_all_keep
        intro c hc
        obtain ⟨r, hr, rfl⟩ := List.mem_map.mp hc
        obtain ⟨-, -, -, h4, h5, -, h7⟩ := hrows r hr
        simp only [clientFresh, mirrorOf]
        have e1 : (r.sessionId == "") = false := by simp [h4]
        have e2 : (r.lastSeen == 0) = false := by simp [h5]
        simp [e1, e2, h7]
      have hcany : (rows.map (mirrorOf "admin")).any
          (fun s => s.id == newSid) = false := by
        apply any_false_of_all
        intro c hc
        obtain ⟨r, hr, rfl⟩ := List.mem_map.mp hc
        have h3 := (hrows r hr).2.2.1
        simp [mirrorOf, h3]
      have hclim : clientLimitForRole "admin" = limitForRole "admin" := by decide
      have hclen : limitForRole "admin" ≤ (rows.map (mirrorOf "admin")).length := by
        rw [List.length_map, hlen]
      rw [registerSessionForUser]
      simp only [hcprune, hcany, Bool.false_eq_true, if_false, hclim, if_pos hclen]
      rw [sortClient_map (mirrorOf "admin") hmf rows, hvt]
      have hvne : ((mirrorOf "admin" v).id == "") = false := by
        have h4 := (hrows v hvmem).2.2.2.1
        simp [mirrorOf, h4]
      have hvne' : (v.sessionId == "") = false := hvne
      simp only [List.map_cons, hvne, Bool.false_eq_true, if_false, mirrorOf, hvne']

/-- C9 amended witness: on two fresh admin sessions at the limit, server
and mirror evict the same session. -/
theorem c9_mirror_amended_witness :
    ((upsertSession defaultConfig userA (reqOf "S3") 10000000 dbFreshPair).2.revokedSessions).head?
      = (registerSessionForUser (dbFreshPair.rows.map (mirrorOf "admin")) "S3" "dev" "ua"
          "admin" 10000000).2.kickedSessionId := by
  obtain ⟨v, hv, hmin, h1, h2⟩ := c9_mirror_amended.2 defaultConfig 1 3 dbFreshPair.rows
    10000000 "S3" "dev" "ua" (by decide) (by decide) (by decide)
  have e1 : (upsertSession defaultConfig userA (reqOf "S3") 10000000 dbFreshPair).2.revokedSessions
      = [v.sessionId] := h1
  have e2 : (registerSessionForUser (dbFreshPair.rows.map (mirrorOf "admin")) "S3" "dev" "ua"
      "admin" 10000000).2.kickedSessionId = some v.sessionId := h2
  rw [e1, e2]
  rfl

end CQ

namespace CQ

/-! ### Claim C2 — amended -/

lemma validate_rows_cases (cfg : Config) (uid : Nat) (sid : Option String) (req : Req)
    (role : String) (now : Int) (db : Db) :
    (validateSession cfg uid sid req role now db).1 = db ∨
    ∃ s, findSession uid (sid.getD "") db.rows = some s ∧ s.revoked = false ∧
      now - getSessionTtlMsForRole cfg role ≤ s.lastSeen ∧
      (validateSession cfg uid sid req role now db).1
        = { rows := db.rows.map (fun r =>
              if r.rowId == s.rowId then touchUpdate now req s r else r),
            nextId := db.nextId } := by
  by_cases hsf : strFalsy sid = true
  · left; simp [validateSession, hsf]
  · have hsf' : strFalsy sid = false := by
      cases h : strFalsy sid
      · rfl
      · exact absurd h hsf
    cases hfind : findSession uid (sid.getD "") db.rows with
    | none => left; simp [validateSession, hsf', hfind]
    | some s =>
      by_cases hrev : s.revoked = true
      · left; simp [validateSession, hsf', hfind, hrev]
      · by_cases hexp : s.lastSeen < now - getSessionTtlMsForRole cfg role
        · left; simp [validateSession, hsf', hfind, hrev, hexp]
        · right
          refine ⟨s, rfl, by simpa using hrev, by omega, ?_⟩
          simp [validateSession, hsf', hfind, hrev, hexp]

/-- C2 amended: once a row is revoked, it stays revoked under every
operation of the subsystem — `validateSession`, logout, admin revocation,
and `upsertSession` — EXCEPT the one exception the code carves out: an
admission for exactly that row's (account, token) pair, whose renewal
`UPDATE` resets `revoked = false` (see the counterexample). Stated over
any well-formed table (distinct row ids below the counter, as in every
reachable state). -/
theorem c2_terminal_amended (cfg : Config) (t : Int) (op : Op) (db : Db)
    (hWF : dbWF db) (r : SessionRow)
    (hr : r ∈ db.rows) (hrev : r.revoked = true)
    (hnr : ¬ renewsTarget op r) :
    ∀ s ∈ (applyOp cfg t op db).rows, s.rowId = r.rowId → s.revoked = true := by
  have hinj := nodup_key_inj db.rows hWF.1
  cases op with
  | upsert u req =>
    by_cases hsf : strFalsy req.sessionId = true
    · intro s hs hsid
      have hrows : (applyOp cfg t (Op.upsert u req) db).rows = db.rows := by
        simp [applyOp, upsertSession, hsf]
      rw [hrows] at hs
      rw [hinj s hs r hr hsid]
      exact hrev
    · have hsf' : strFalsy req.sessionId = false := by
        cases h : strFalsy req.sessionId
        · rfl
        · exact absurd h hsf
      have hsub : (upsertPruned cfg u t db).Sublist db.rows := List.filter_sublist _
      cases hfind : findSession u.id (req.sessionId.getD "") (upsertPruned cfg u t db) with
      | some ex =>
        have happ : (applyOp cfg t (Op.upsert u req) db).rows
            = (upsertPruned cfg u t db).map (fun x =>
                if x.rowId == ex.rowId then
                  renewUpdate t (optStr req.deviceId) (optStr req.ip) (uaOpt req.userAgent) x
                else x) := by
          simp [applyOp, upsertSession, hsf', hfind]
        intro s hs hsid
        rw [happ] at hs
        obtain ⟨x, hx, rfl⟩ := List.mem_map.mp hs
        have hxdb : x ∈ db.rows := hsub.subset hx
        by_cases hbe : (x.rowId == ex.rowId) = true
        · exfalso
          rw [if_pos hbe] at hsid
          have hxid : x.rowId = r.rowId := hsid
          have hxr : x = r := hinj x hxdb r hr hxid
          have hexmem : ex ∈ upsertPruned cfg u t db := List.mem_of_find?_eq_some hfind
          have hexdb : ex ∈ db.rows := hsub.subset hexmem
          have hbe' : x.rowId = ex.rowId := by simpa using hbe
          have hexr : ex = r := hinj ex hexdb r hr (by rw [← hbe', hxid])
          have hpred := List.find?_some hfind
          simp only [Bool.and_eq_true, beq_iff_eq] at hpred
          apply hnr
          refine ⟨hsf', ?_, ?_⟩
          · rw [← hexr]; exact hpred.1.symm
          · rw [← hexr]; exact hpred.2.symm
        · rw [if_neg hbe] at hsid ⊢
          rw [hinj x hxdb r hr hsid]
          exact hrev
      | none =>
        have happ : (applyOp cfg t (Op.upsert u req) db).rows
            = markRevoked
                ((evictList (limitForRole u.role)
                    (sortLS (upsertActive cfg u t db))).map (fun x => x.rowId))
                (upsertPruned cfg u t db)
              ++ [{ rowId := db.nextId, userId := u.id,
                    sessionId := req.sessionId.getD "",
                    deviceId := optStr req.deviceId, ipAddress := optStr req.ip,
                    userAgent := uaOpt req.userAgent,
                    startedAt := t, lastSeen := t, revoked := false }] := by
          simp [applyOp, upsertSession, hsf', hfind]
        intro s hs hsid
        rw [happ] at hs
        rcases List.mem_append.mp hs with hs1 | hs2
        · rw [markRevoked] at hs1
          obtain ⟨x, hx, rfl⟩ := List.mem_map.mp hs1
          have hxdb : x ∈ db.rows := hsub.subset hx
          by_cases hbe : ((evictList (limitForRole u.role)
              (sortLS (upsertActive cfg u t db))).map (fun x => x.rowId)).contains x.rowId
              = true
          · rw [if_pos hbe]
          · rw [if_neg hbe] at hsid ⊢
            rw [hinj x hxdb r hr hsid]
            exact hrev
        · exfalso
          have hsr := List.mem_singleton.mp hs2
          have hlt : r.rowId < db.nextId := hWF.2 r hr
          have hnx : s.rowId = db.nextId := by rw [hsr]
          omega
  | validate u sidv reqv =>
    rcases validate_rows_cases cfg u.id sidv reqv u.role t db with hcase | ⟨s0, -, -, -, heq⟩
    · intro s hs hsid
      have hrows : (applyOp cfg t (Op.validate u sidv reqv) db).rows = db.rows := by
        simp [applyOp, hcase]
      rw [hrows] at hs
      rw [hinj s hs r hr hsid]
      exact hrev
    · intro s hs hsid
      have hrows : (applyOp cfg t (Op.validate u sidv reqv) db).rows
          = db.rows.map (fun x =>
              if x.rowId == s0.rowId then touchUpdate t reqv s0 x else x) := by
        simp [applyOp, heq]
      rw [hrows] at hs
      obtain ⟨x, hx, rfl⟩ := List.mem_map.mp hs
      have hkeep : (if x.rowId == s0.rowId then touchUpdate t reqv s0 x else x).revoked
          = x.revoked := by
        by_cases hbe : (x.rowId == s0.rowId) = true
        · rw [if_pos hbe] <;> rfl
        · rw [if_neg hbe]
      have hid : (if x.rowId == s0.rowId then touchUpdate t reqv s0 x else x).rowId
          = x.rowId := by
        by_cases hbe : (x.rowId == s0.rowId) = true
        · rw [if_pos hbe] <;> rfl
        · rw [if_neg hbe]
      rw [hkeep]
      rw [hid] at hsid
      rw [hinj x hx r hr hsid]
      exact hrev
  | logout uid' sidl =>
    by_cases hsf : strFalsy sidl = true
    · intro s hs hsid
      have hrows : (applyOp cfg t (Op.logout uid' sidl) db).rows = db.rows := by
        simp [applyOp, logoutRevoke, hsf]
      rw [hrows] at hs
      rw [hinj s hs r hr hsid]
      exact hrev
    · have hsf' : strFalsy sidl = false := by
        cases h : strFalsy sidl
        · rfl
        · exact absurd h hsf
      intro s hs hsid
      have hrows : (applyOp cfg t (Op.logout uid' sidl) db).rows
          = db.rows.map (fun x =>
              if x.userId == uid' && x.sessionId == sidl.getD "" then
                { x with revoked := true } else x) := by
        simp [applyOp, logoutRevoke, hsf']
      rw [hrows] at hs
      obtain ⟨x, hx, rfl⟩ := List.mem_map.mp hs
      by_cases hbe : (x.userId == uid' && x.sessionId == sidl.getD "") = true
      · rw [if_pos hbe]
      · rw [if_neg hbe] at hsid ⊢
        rw [hinj x hx r hr hsid]
        exact hrev
  | adminRevoke sidr =>
    intro s hs hsid
    have hrows : (applyOp cfg t (Op.adminRevoke sidr) db).rows
        = db.rows.map (fun x =>
            if x.sessionId == sidr then { x with revoked := true } else x) := by
      simp [applyOp, adminRevokeSession]
    rw [hrows] at hs
    obtain ⟨x, hx, rfl⟩ := List.mem_map.mp hs
    by_cases hbe : (x.sessionId == sidr) = true
    · rw [if_pos hbe]
    · rw [if_neg hbe] at hsid ⊢
      rw [hinj x hx r hr hsid]
      exact hrev

/-- C2 amended witness: the revoked S1 row of the logout scenario is still
revoked after an unrelated admin revocation. -/
theorem c2_terminal_amended_witness :
    (⟨1, 1, "S1", some "dev", none, some "ua", 0, 0, true⟩ : SessionRow).revoked = true :=
  c2_terminal_amended defaultConfig 5 (Op.adminRevoke "S9") dbRevoked ⟨by decide, by decide⟩
    ⟨1, 1, "S1", some "dev", none, some "ua", 0, 0, true⟩ (by decide) (by decide)
    (fun h => h)
    ⟨1, 1, "S1", some "dev", none, some "ua", 0, 0, true⟩ (by decide) (by decide)

end CQ

namespace CQ

/-! ### Claim C3 — amended -/

lemma filter_filter_own {α : Type} (p q : α → Bool) (l : List α) :
    (l.filter q).filter p = l.filter (fun a => q a && p a) := by
  induction l with
  | nil => rfl
  | cons a l ih =>
    cases hq : q a <;> cases hp : p a <;>
      simp [List.filter_cons, hq, hp, ih]

/-- C3 amended: when the existing row for (account, token) is NOT revoked
(it is necessarily fresh, because the inline prune has already deleted
stale rows), re-admitting the pair renews it: the call returns an empty
`revokedSessions` list, the account's active count is unchanged, and no
row becomes revoked that was not already revoked. The claim as stated is
false because an existing REVOKED row is resurrected by the same branch,
which raises the active count (see the counterexample); an existing stale
row is deleted and re-inserted rather than renewed. -/
theorem c3_renewal_amended (cfg : Config) (user : UserInfo) (req : Req) (now : Int)
    (db : Db) (sid : String) (ex : SessionRow)
    (hWF : dbWF db)
    (hsid : req.sessionId = some sid) (hne : sid ≠ "")
    (hfind : findSession user.id sid (upsertPruned cfg user now db) = some ex)
    (hrev : ex.revoked = false)
    (httl : 0 ≤ getSessionTtlMsForRole cfg user.role) :
    (upsertSession cfg user req now db).2 = ⟨some sid, []⟩ ∧
    countActive cfg user.id user.role now (upsertSession cfg user req now db).1
      = countActive cfg user.id user.role now db ∧
    (∀ s ∈ (upsertSession cfg user req now db).1.rows, s.revoked = true →
      ∃ q ∈ db.rows, q.rowId = s.rowId ∧ q.revoked = true) := by
  have hsf : strFalsy req.sessionId = false := by
    rw [hsid]; simp [strFalsy, hne]
  have hup : upsertSession cfg user req now db
      = ({ rows := (upsertPruned cfg user now db).map (fun x =>
            if x.rowId == ex.rowId then
              renewUpdate now (optStr req.deviceId) (optStr req.ip) (uaOpt req.userAgent) x
            else x), nextId := db.nextId }, ⟨some sid, []⟩) := by
    have hsf2 : strFalsy (some sid) = false := by simp [strFalsy, hne]
    rw [upsertSession]
    simp only [hsf, hsf2, Bool.false_eq_true, if_false, hsid, Option.getD_some, hfind]
  have hsub : (upsertPruned cfg user now db).Sublist db.rows := List.filter_sublist _
  have hnd1 : ((upsertPruned cfg user now db).map (fun r => r.rowId)).Nodup :=
    List.Nodup.sublist (List.Sublist.map _ hsub) hWF.1
  have hinj1 := nodup_key_inj _ hnd1
  have hexmem : ex ∈ upsertPruned cfg user now db := List.mem_of_find?_eq_some hfind
  have hpred := List.find?_some hfind
  simp only [findSession] at hpred
  simp only [Bool.and_eq_true, beq_iff_eq] at hpred
  have hexbe : (ex.userId == user.id) = true := by simp [hpred.1]
  have hexfresh : upsertTtlDate cfg user now ≤ ex.lastSeen := by
    have hexmem' := hexmem
    rw [upsertPruned, pruneStale] at hexmem'
    have hkeep := (List.mem_filter.mp hexmem').2
    simp only [hexbe, Bool.true_and, Bool.not_eq_true'] at hkeep
    have := of_decide_eq_false hkeep
    omega
  have hTle : upsertTtlDate cfg user now ≤ now := by
    simp only [upsertTtlDate]
    omega
  refine ⟨by rw [hup], ?_, ?_⟩
  · rw [hup]
    simp only [countActive, activeRows]
    rw [len_filter_map]
    have hpoint : ∀ x ∈ upsertPruned cfg user now db,
        activePredT user.id (now - getSessionTtlMsForRole cfg user.role)
          ((fun x => if x.rowId == ex.rowId then
              renewUpdate now (optStr req.deviceId) (optStr req.ip) (uaOpt req.userAgent) x
            else x) x)
        = activePredT user.id (now - getSessionTtlMsForRole cfg user.role) x := by
      intro x hx
      by_cases hbe : (x.rowId == ex.rowId) = true
      · have hxex : x = ex := hinj1 x hx ex hexmem (by simpa using hbe)
        subst hxex
        simp only [if_pos hbe]
        have e1 : activePredT user.id (now - getSessionTtlMsForRole cfg user.role)
            (renewUpdate now (optStr req.deviceId) (optStr req.ip) (uaOpt req.userAgent) x)
            = true := by
          simp only [activePredT, renewUpdate, hexbe, Bool.true_and, Bool.not_false]
          have : now - getSessionTtlMsForRole cfg user.role ≤ now := hTle
          simp [this]
        have e2 : activePredT user.id (now - getSessionTtlMsForRole cfg user.role) x
            = true := by
          simp only [activePredT, hexbe, hrev, Bool.true_and, Bool.not_false]
          have : now - getSessionTtlMsForRole cfg user.role ≤ x.lastSeen := hexfresh
          simp [this]
        rw [e1, e2]
      · simp only [if_neg hbe]
    rw [filter_congr_mem _ _ _ hpoint]
    have hrw : upsertPruned cfg user now db
        = db.rows.filter (fun r =>
            !(r.userId == user.id && decide (r.lastSeen < upsertTtlDate cfg user now))) := by
      rw [upsertPruned, pruneStale]
    rw [hrw, filter_filter_own]
    congr 1
    apply filter_congr_mem
    intro a ha
    cases hpa : activePredT user.id (now - getSessionTtlMsForRole cfg user.role) a
    · simp
    · have hfacts : (a.userId == user.id) = true ∧ a.revoked = false ∧
          now - getSessionTtlMsForRole cfg user.role ≤ a.lastSeen := by
        have := hpa
        simp only [activePredT, Bool.and_eq_true, Bool.not_eq_true',
          decide_eq_true_eq] at this
        exact ⟨by simp [this.1.1], this.1.2, this.2⟩
      have hnl : ¬ (a.lastSeen < upsertTtlDate cfg user now) := by
        simp only [upsertTtlDate]
        omega
      simp [hfacts.1, hnl]
  · rw [hup]
    intro s hs hsrev
    obtain ⟨x, hx, rfl⟩ := List.mem_map.mp hs
    by_cases hbe : (x.rowId == ex.rowId) = true
    · rw [if_pos hbe] at hsrev
      simp [renewUpdate] at hsrev
    · rw [if_neg hbe] at hsrev ⊢
      exact ⟨x, hsub.subset hx, rfl, hsrev⟩

/-- C3 amended witness: renewing the fresh non-revoked S1 row of `dbFresh`
returns no revocations and keeps the active count at 1. -/
theorem c3_renewal_amended_witness :
    (upsertSession defaultConfig userU (reqOf "S1") 10000000 dbFresh).2
      = ⟨some "S1", []⟩ ∧
    countActive defaultConfig 1 "user" 10000000
        (upsertSession defaultConfig userU (reqOf "S1") 10000000 dbFresh).1
      = countActive defaultConfig 1 "user" 10000000 dbFresh := by
  have h := c3_renewal_amended defaultConfig userU (reqOf "S1") 10000000 dbFresh "S1"
    freshRow ⟨by decide, by decide⟩ (by decide) (by decide) (by decide) (by decide)
    (by decide)
  exact ⟨h.1, h.2.1⟩

end CQ

namespace CQ

/-! ### Claim C4 — amended -/

/-- C4 amended: when the admitted token has no existing row and the active
set has size exactly `limit(role)` — the only size the maintained bound
allows, see the bound claim — the eviction loop revokes exactly one row:
the least-recently-used active row (minimal `last_seen`; among ties, the
first in table order, which under the non-decreasing `started_at` of
insertion order is one with the earliest `started_at`), and then inserts
the new session. The claim as stated is false because from an over-limit
state (reachable through resurrection) the `while` loop revokes SEVERAL
rows, not exactly the least-recently-used one (see the counterexample). -/
theorem c4_lru_amended (cfg : Config) (user : UserInfo) (req : Req) (now : Int)
    (db : Db) (sid : String)
    (hsid : req.sessionId = some sid) (hne : sid ≠ "")
    (hfind : findSession user.id sid (upsertPruned cfg user now db) = none)
    (hlen : (upsertActive cfg user now db).length = limitForRole user.role)
    (hstart : List.Pairwise (fun a b => a.startedAt ≤ b.startedAt)
      (upsertActive cfg user now db)) :
    ∃ v ∈ upsertActive cfg user now db,
      (upsertSession cfg user req now db).2.revokedSessions = [v.sessionId] ∧
      (∀ x ∈ upsertActive cfg user now db, v.lastSeen ≤ x.lastSeen) ∧
      (∀ x ∈ upsertActive cfg user now db, x.lastSeen = v.lastSeen →
        v.startedAt ≤ x.startedAt) ∧
      (upsertSession cfg user req now db).1.rows
        = markRevoked [v.rowId] (upsertPruned cfg user now db)
          ++ [{ rowId := db.nextId, userId := user.id, sessionId := sid,
                deviceId := optStr req.deviceId, ipAddress := optStr req.ip,
                userAgent := uaOpt req.userAgent,
                startedAt := now, lastSeen := now, revoked := false }] := by
  have hsf : strFalsy req.sessionId = false := by
    rw [hsid]; simp [strFalsy, hne]
  have hsf2 : strFalsy (some sid) = false := by simp [strFalsy, hne]
  have hslen : (sortLS (upsertActive cfg user now db)).length = limitForRole user.role := by
    rw [length_sortLS, hlen]
  have hlim : 1 ≤ limitForRole user.role := by
    rw [limitForRole]
    by_cases h : (user.role == "admin") = true <;> simp [h]
  obtain ⟨v, t, hvt⟩ : ∃ v t, sortLS (upsertActive cfg user now db) = v :: t := by
    cases hs : sortLS (upsertActive cfg user now db) with
    | nil => rw [hs] at hslen; simp at hslen; omega
    | cons v t => exact ⟨v, t, rfl⟩
  obtain ⟨hvmem, hvmin, hvtie⟩ := sortLS_min _ v t hvt
  have hev : evictList (limitForRole user.role) (sortLS (upsertActive cfg user now db))
      = [v] := by
    rw [evictList_of_length_eq _ _ hslen, hvt]
    rfl
  have hup : upsertSession cfg user req now db
      = ({ rows := markRevoked [v.rowId] (upsertPruned cfg user now db)
             ++ [{ rowId := db.nextId, userId := user.id, sessionId := sid,
                   deviceId := optStr req.deviceId, ipAddress := optStr req.ip,
                   userAgent := uaOpt req.userAgent,
                   startedAt := now, lastSeen := now, revoked := false }],
           nextId := db.nextId + 1 },
         ⟨some sid, [v.sessionId]⟩) := by
    rw [upsertSession]
    simp only [hsf, hsf2, Bool.false_eq_true, if_false, hsid, Option.getD_some, hfind,
      hev, List.map_cons, List.map_nil]
  exact ⟨v, hvmem, by rw [hup], hvmin, hvtie hstart, by rw [hup]⟩

/-- C4 amended witness: with the two fresh admin rows of `dbStaleMirror`
exactly at the admin limit, admitting the unseen token S3 revokes exactly
the least-recently-used row S1. -/
theorem c4_lru_amended_witness :
    (upsertSession defaultConfig userA (reqOf "S3") 10000000 dbStaleMirror).2.revokedSessions
      = ["S1"] := by
  obtain ⟨v, hv, hrevs, hmin, htie, hrows⟩ := c4_lru_amended defaultConfig userA
    (reqOf "S3") 10000000 dbStaleMirror "S3" (by decide) (by decide) (by decide)
    (by decide) (by decide)
  have hA : upsertActive defaultConfig userA 10000000 dbStaleMirror
      = [adminRow 1 "S1" 8800000, adminRow 2 "S2" 8800001] := by decide
  rw [hA] at hv hmin
  rcases List.mem_cons.mp hv with hv1 | hv2
  · rw [hrevs, hv1]
    rfl
  · have hv2' : v = adminRow 2 "S2" 8800001 := by simpa using hv2
    have hcontra := hmin (adminRow 1 "S1" 8800000) (List.mem_cons_self _ _)
    rw [hv2'] at hcontra
    exact absurd hcontra (by decide)

end CQ

namespace CQ

/-! ### Claim C1 — supporting lemmas for the amended bound invariant -/

lemma ttl_nonneg (cfg : Config) (hc : 0 ≤ cfg.sessionTtlMs ∧ 0 ≤ cfg.adminSessionTtlMs)
    (role : String) : 0 ≤ getSessionTtlMsForRole cfg role := by
  rw [getSessionTtlMsForRole]
  by_cases h : (lowerStr role == "admin") = true
  · rw [if_pos h]; exact hc.2
  · rw [if_neg h]; exact hc.1

lemma countActive_mono_time (cfg : Config) (uid : Nat) (role : String) (t t' : Int)
    (h : t ≤ t') (db : Db) :
    countActive cfg uid role t' db ≤ countActive cfg uid role t db := by
  simp only [countActive, activeRows]
  apply len_filter_le_of_imp
  intro r _ hp
  simp only [activePredT, Bool.and_eq_true, Bool.not_eq_true', decide_eq_true_eq] at hp ⊢
  obtain ⟨h1, h2⟩ := hp
  exact ⟨h1, by omega⟩

lemma map_comp_key (f : SessionRow → SessionRow)
    (hf : ∀ r, (f r).rowId = r.rowId) (l : List SessionRow) :
    (l.map f).map (fun r => r.rowId) = l.map (fun r => r.rowId) := by
  induction l with
  | nil => rfl
  | cons a l ih => simp [hf, ih]

lemma wf_rows_map (db : Db) (f : SessionRow → SessionRow)
    (hf : ∀ r, (f r).rowId = r.rowId) (hWF : dbWF db) :
    dbWF { rows := db.rows.map f, nextId := db.nextId } := by
  constructor
  · rw [show ((db.rows.map f).map (fun r => r.rowId)) = db.rows.map (fun r => r.rowId)
      from map_comp_key f hf db.rows]
    exact hWF.1
  · intro r hr
    obtain ⟨x, hx, rfl⟩ := List.mem_map.mp hr
    rw [hf x]
    exact hWF.2 x hx

lemma wf_prune (db : Db) (uid : Nat) (T : Int) :
    dbWF db → dbWF { rows := pruneStale uid T db.rows, nextId := db.nextId } := by
  intro hWF
  constructor
  · exact List.Nodup.sublist (List.Sublist.map _ (List.filter_sublist _)) hWF.1
  · intro r hr
    exact hWF.2 r ((List.filter_sublist _).subset hr)

lemma contains_of_mem {a : Nat} {l : List Nat} (h : a ∈ l) : l.contains a = true :=
  List.elem_iff.mpr h

lemma wf_mark_append (rows1 : List SessionRow) (n : Nat) (ids : List Nat)
    (new : SessionRow)
    (hnd : (rows1.map (fun r => r.rowId)).Nodup)
    (hlt : ∀ r ∈ rows1, r.rowId < n)
    (hnew : new.rowId = n) :
    dbWF { rows := markRevoked ids rows1 ++ [new], nextId := n + 1 } := by
  have hnd2 : ((markRevoked ids rows1).map (fun r => r.rowId)).Nodup := by
    rw [markRevoked, map_comp_key]
    · exact hnd
    · intro r
      by_cases hbe : ids.contains r.rowId = true
      · rw [if_pos hbe]
      · rw [if_neg hbe]
  have hlt2 : ∀ r ∈ markRevoked ids rows1, r.rowId < n := by
    intro r hr
    rw [markRevoked] at hr
    obtain ⟨x, hx, rfl⟩ := List.mem_map.mp hr
    have hxk : ((fun y => if ids.contains y.rowId then { y with revoked := true }
        else y) x).rowId = x.rowId := by
      dsimp only
      by_cases hbe : ids.contains x.rowId = true
      · rw [if_pos hbe]
      · rw [if_neg hbe]
    rw [hxk]
    exact hlt x hx
  constructor
  · rw [List.map_append]
    simp only [List.map_cons, List.map_nil]
    apply nodup_append_single
    · exact hnd2
    · intro hmem
      obtain ⟨x, hx, hxid⟩ := List.mem_map.mp hmem
      have := hlt2 x hx
      omega
  · intro r hr
    show r.rowId < n + 1
    rcases List.mem_append.mp hr with h1 | h2
    · have := hlt2 r h1
      omega
    · rw [List.mem_singleton.mp h2, hnew]
      omega

lemma wf_upsert (cfg : Config) (user : UserInfo) (req : Req) (t : Int) (db : Db)
    (hWF : dbWF db) : dbWF (upsertSession cfg user req t db).1 := by
  by_cases hsf : strFalsy req.sessionId = true
  · have h : (upsertSession cfg user req t db).1 = db := by simp [upsertSession, hsf]
    rw [h]; exact hWF
  · have hsf' : strFalsy req.sessionId = false := by
      cases h : strFalsy req.sessionId
      · rfl
      · exact absurd h hsf
    have hWF1 : dbWF { rows := upsertPruned cfg user t db, nextId := db.nextId } :=
      wf_prune db user.id _ hWF
    cases hfind : findSession user.id (req.sessionId.getD "") (upsertPruned cfg user t db) with
    | some ex =>
      have h : (upsertSession cfg user req t db).1
          = { rows := (upsertPruned cfg user t db).map (fun x =>
                if x.rowId == ex.rowId then
                  renewUpdate t (optStr req.deviceId) (optStr req.ip) (uaOpt req.userAgent) x
                else x), nextId := db.nextId } := by
        simp [upsertSession, hsf', hfind]
      rw [h]
      exact wf_rows_map _ _ (fun r => by
        by_cases hbe : (r.rowId == ex.rowId) = true
        · rw [if_pos hbe] <;> rfl
        · rw [if_neg hbe]) hWF1
    | none =>
      have h : (upsertSession cfg user req t db).1
          = { rows := markRevoked
                ((evictList (limitForRole user.role)
                    (sortLS (upsertActive cfg user t db))).map (fun x => x.rowId))
                (upsertPruned cfg user t db)
              ++ [{ rowId := db.nextId, userId := user.id,
                    sessionId := req.sessionId.getD "",
                    deviceId := optStr req.deviceId, ipAddress := optStr req.ip,
                    userAgent := uaOpt req.userAgent,
                    startedAt := t, lastSeen := t, revoked := false }],
              nextId := db.nextId + 1 } := by
        simp [upsertSession, hsf', hfind]
      rw [h]
      exact wf_mark_append (upsertPruned cfg user t db) db.nextId
        ((evictList (limitForRole user.role)
            (sortLS (upsertActive cfg user t db))).map (fun x => x.rowId))
        { rowId := db.nextId, userId := user.id,
          sessionId := req.sessionId.getD "",
          deviceId := optStr req.deviceId, ipAddress := optStr req.ip,
          userAgent := uaOpt req.userAgent,
          startedAt := t, lastSeen := t, revoked := false }
        hWF1.1 hWF1.2 rfl

lemma wf_validate (cfg : Config) (uid : Nat) (sid : Option String) (req : Req)
    (role : String) (t : Int) (db : Db) (hWF : dbWF db) :
    dbWF (validateSession cfg uid sid req role t db).1 := by
  rcases validate_rows_cases cfg uid sid req role t db with h | ⟨s0, -, -, -, h⟩
  · rw [h]; exact hWF
  · rw [h]
    exact wf_rows_map db _ (fun r => by
      by_cases hbe : (r.rowId == s0.rowId) = true
      · rw [if_pos hbe] <;> rfl
      · rw [if_neg hbe]) hWF

lemma wf_applyOp (cfg : Config) (t : Int) (op : Op) (db : Db) (hWF : dbWF db) :
    dbWF (applyOp cfg t op db) := by
  cases op with
  | upsert u req => exact wf_upsert cfg u req t db hWF
  | validate u sid req => exact wf_validate cfg u.id sid req u.role t db hWF
  | logout uid' sid =>
    by_cases hsf : strFalsy sid = true
    · have h : applyOp cfg t (Op.logout uid' sid) db = db := by
        simp [applyOp, logoutRevoke, hsf]
      rw [h]; exact hWF
    · have hsf' : strFalsy sid = false := by
        cases h : strFalsy sid
        · rfl
        · exact absurd h hsf
      have h : applyOp cfg t (Op.logout uid' sid) db
          = { rows := db.rows.map (fun x =>
                if x.userId == uid' && x.sessionId == sid.getD "" then
                  { x with revoked := true } else x), nextId := db.nextId } := by
        simp [applyOp, logoutRevoke, hsf']
      rw [h]
      exact wf_rows_map db _ (fun r => by
        by_cases hbe : (r.userId == uid' && r.sessionId == sid.getD "") = true
        · rw [if_pos hbe] <;> rfl
        · rw [if_neg hbe]) hWF
  | adminRevoke sidr =>
    have h : applyOp cfg t (Op.adminRevoke sidr) db
        = { rows := db.rows.map (fun x =>
              if x.sessionId == sidr then { x with revoked := true } else x),
            nextId := db.nextId } := by
      simp [applyOp, adminRevokeSession]
    rw [h]
    exact wf_rows_map db _ (fun r => by
      by_cases hbe : (r.sessionId == sidr) = true
      · rw [if_pos hbe] <;> rfl
      · rw [if_neg hbe]) hWF

lemma count_filter_le (p keep : SessionRow → Bool) (l : List SessionRow) :
    ((l.filter keep).filter p).length ≤ (l.filter p).length := by
  rw [filter_filter_own]
  apply len_filter_le_of_imp
  intro a _ h
  simp only [Bool.and_eq_true] at h
  exact h.2

lemma count_map_le (p : SessionRow → Bool) (f : SessionRow → SessionRow)
    (l : List SessionRow)
    (h : ∀ r ∈ l, p (f r) = true → p r = true) :
    ((l.map f).filter p).length ≤ (l.filter p).length := by
  rw [len_filter_map]
  exact len_filter_le_of_imp _ _ l h

lemma count_map_eq (p : SessionRow → Bool) (f : SessionRow → SessionRow)
    (l : List SessionRow)
    (h : ∀ r ∈ l, p (f r) = p r) :
    ((l.map f).filter p).length = (l.filter p).length := by
  rw [len_filter_map]
  exact congrArg List.length (filter_congr_mem _ _ l h)

lemma insert_branch_count (uid : Nat) (T : Int) (lim : Nat) (hlim : 1 ≤ lim)
    (rows1 : List SessionRow) (new : SessionRow)
    (hnewp : activePredT uid T new = true) :
    ((markRevoked ((evictList lim (sortLS (activeRows uid T rows1))).map (fun x => x.rowId))
        rows1 ++ [new]).filter (activePredT uid T)).length ≤ lim := by
  rw [List.filter_append, List.length_append]
  have h2 : ([new].filter (activePredT uid T)).length = 1 := by
    simp [List.filter_cons, hnewp]
  rw [h2]
  rw [markRevoked, len_filter_map]
  have hpoint : ∀ r ∈ rows1,
      (activePredT uid T (if ((evictList lim (sortLS (activeRows uid T rows1))).map
            (fun x => x.rowId)).contains r.rowId then { r with revoked := true } else r))
      = (activePredT uid T r
          && !(((evictList lim (sortLS (activeRows uid T rows1))).map
            (fun x => x.rowId)).contains r.rowId)) := by
    intro r _
    by_cases hc : ((evictList lim (sortLS (activeRows uid T rows1))).map
        (fun x => x.rowId)).contains r.rowId = true
    · rw [if_pos hc, hc]
      simp [activePredT]
    · have hc' : ((evictList lim (sortLS (activeRows uid T rows1))).map
          (fun x => x.rowId)).contains r.rowId = false := by
        cases h : ((evictList lim (sortLS (activeRows uid T rows1))).map
            (fun x => x.rowId)).contains r.rowId
        · rfl
        · exact absurd h hc
      rw [if_neg hc, hc']
      simp
  rw [filter_congr_mem _ _ _ hpoint]
  have hsplit : rows1.filter (fun r => activePredT uid T r
        && !(((evictList lim (sortLS (activeRows uid T rows1))).map
          (fun x => x.rowId)).contains r.rowId))
      = (activeRows uid T rows1).filter (fun r =>
          !(((evictList lim (sortLS (activeRows uid T rows1))).map
            (fun x => x.rowId)).contains r.rowId)) := by
    rw [activeRows, filter_filter_own]
  rw [hsplit]
  have hadd := len_filter_add_not (fun r =>
    ((evictList lim (sortLS (activeRows uid T rows1))).map
      (fun x => x.rowId)).contains r.rowId) (activeRows uid T rows1)
  have hsubrev : (evictList lim (sortLS (activeRows uid T rows1))).length
      ≤ ((activeRows uid T rows1).filter (fun r =>
          ((evictList lim (sortLS (activeRows uid T rows1))).map
            (fun x => x.rowId)).contains r.rowId)).length := by
    have h1 : (evictList lim (sortLS (activeRows uid T rows1))).filter (fun r =>
        ((evictList lim (sortLS (activeRows uid T rows1))).map
          (fun x => x.rowId)).contains r.rowId)
        = evictList lim (sortLS (activeRows uid T rows1)) := by
      apply filter_all_keep
      intro r hr
      exact contains_of_mem (List.mem_map_of_mem _ hr)
    have hsb : ((evictList lim (sortLS (activeRows uid T rows1))).filter (fun r =>
        ((evictList lim (sortLS (activeRows uid T rows1))).map
          (fun x => x.rowId)).contains r.rowId)).Sublist
        ((sortLS (activeRows uid T rows1)).filter (fun r =>
          ((evictList lim (sortLS (activeRows uid T rows1))).map
            (fun x => x.rowId)).contains r.rowId)) :=
      List.Sublist.filter _ (evictList_sublist lim _)
    have h3 := hsb.length_le
    rw [h1] at h3
    have h4 := (List.Perm.filter (fun r =>
        ((evictList lim (sortLS (activeRows uid T rows1))).map
          (fun x => x.rowId)).contains r.rowId) (sortLS_perm (activeRows uid T rows1))).length_eq
    rw [h4] at h3
    exact h3
  have hlenS : (sortLS (activeRows uid T rows1)).length = (activeRows uid T rows1).length :=
    length_sortLS _
  have hbound := evictList_length_bound lim hlim (sortLS (activeRows uid T rows1))
  omega

lemma insert_branch_count_other (uid : Nat) (T : Int) (ids : List Nat)
    (rows1 : List SessionRow) (new : SessionRow)
    (hnew : activePredT uid T new = false) :
    ((markRevoked ids rows1 ++ [new]).filter (activePredT uid T)).length
      ≤ (rows1.filter (activePredT uid T)).length := by
  rw [List.filter_append, List.length_append]
  have h2 : ([new].filter (activePredT uid T)).length = 0 := by
    simp [List.filter_cons, hnew]
  rw [h2]
  rw [markRevoked]
  have := count_map_le (activePredT uid T) (fun r =>
    if ids.contains r.rowId then { r with revoked := true } else r) rows1 (by
      intro r _ hp
      dsimp only at hp
      by_cases hc : ids.contains r.rowId = true
      · rw [if_pos hc] at hp
        simp [activePredT] at hp
      · rw [if_neg hc] at hp
        exact hp)
  omega

end CQ

namespace CQ

lemma step_bound (cfg : Config) (hc : 0 ≤ cfg.sessionTtlMs ∧ 0 ≤ cfg.adminSessionTtlMs)
    (uid : Nat) (roleR : String) (t : Int) (op : Op) (db : Db)
    (hWF : dbWF db)
    (hcount : countActive cfg uid roleR t db ≤ limitForRole roleR)
    (hco : opConsistentB uid roleR op = true)
    (hnr : ∀ u req, op = Op.upsert u req → u.id = uid →
      resurrectsB cfg u req t db = false) :
    countActive cfg uid roleR t (applyOp cfg t op db) ≤ limitForRole roleR := by
  have httlR : 0 ≤ getSessionTtlMsForRole cfg roleR := ttl_nonneg cfg hc roleR
  cases op with
  | adminRevoke sidr =>
    have h : applyOp cfg t (Op.adminRevoke sidr) db
        = { rows := db.rows.map (fun x =>
              if x.sessionId == sidr then { x with revoked := true } else x),
            nextId := db.nextId } := by
      simp [applyOp, adminRevokeSession]
    rw [h]
    simp only [countActive, activeRows] at hcount ⊢
    refine le_trans (count_map_le _ _ _ ?_) hcount
    intro r _ hp
    by_cases hbe : (r.sessionId == sidr) = true
    · rw [if_pos hbe] at hp
      simp [activePredT] at hp
    · rw [if_neg hbe] at hp
      exact hp
  | logout uid' sidl =>
    by_cases hsf : strFalsy sidl = true
    · have h : applyOp cfg t (Op.logout uid' sidl) db = db := by
        simp [applyOp, logoutRevoke, hsf]
      rw [h]; exact hcount
    · have hsf' : strFalsy sidl = false := by
        cases hx : strFalsy sidl
        · rfl
        · exact absurd hx hsf
      have h : applyOp cfg t (Op.logout uid' sidl) db
          = { rows := db.rows.map (fun x =>
                if x.userId == uid' && x.sessionId == sidl.getD "" then
                  { x with revoked := true } else x),
              nextId := db.nextId } := by
        simp [applyOp, logoutRevoke, hsf']
      rw [h]
      simp only [countActive, activeRows] at hcount ⊢
      refine le_trans (count_map_le _ _ _ ?_) hcount
      intro r _ hp
      by_cases hbe : (r.userId == uid' && r.sessionId == sidl.getD "") = true
      · rw [if_pos hbe] at hp
        simp [activePredT] at hp
      · rw [if_neg hbe] at hp
        exact hp
  | validate u sidv reqv =>
    rcases validate_rows_cases cfg u.id sidv reqv u.role t db with hcase
      | ⟨s0, hfind0, hrev0, hfresh0, heq⟩
    · have h : applyOp cfg t (Op.validate u sidv reqv) db = db := by
        simp [applyOp, hcase]
      rw [h]; exact hcount
    · have h : applyOp cfg t (Op.validate u sidv reqv) db
          = { rows := db.rows.map (fun x =>
                if x.rowId == s0.rowId then touchUpdate t reqv s0 x else x),
              nextId := db.nextId } := by
        simp [applyOp, heq]
      rw [h]
      have hinj := nodup_key_inj db.rows hWF.1
      have hs0mem : s0 ∈ db.rows := List.mem_of_find?_eq_some hfind0
      simp only [countActive, activeRows] at hcount ⊢
      refine le_trans (count_map_le _ _ _ ?_) hcount
      intro r hrmem hp
      by_cases hbe : (r.rowId == s0.rowId) = true
      · have hrs0 : r = s0 := hinj r hrmem s0 hs0mem (by simpa using hbe)
        subst hrs0
        rw [if_pos hbe] at hp
        simp only [activePredT, touchUpdate, Bool.and_eq_true, Bool.not_eq_true',
          decide_eq_true_eq] at hp ⊢
        obtain ⟨⟨hid, hrv⟩, -⟩ := hp
        refine ⟨⟨hid, hrv⟩, ?_⟩
        have hpred := List.find?_some hfind0
        simp only [Bool.and_eq_true, beq_iff_eq] at hpred
        have huid : u.id = uid := by
          rw [← hpred.1]
          simpa using hid
        have hrole : u.role = roleR := by
          simp only [opConsistentB] at hco
          have hb : (u.id == uid) = true := by simp [huid]
          rw [hb] at hco
          simpa using hco
        rw [hrole] at hfresh0
        exact hfresh0
      · rw [if_neg hbe] at hp
        exact hp
  | upsert u req =>
    by_cases hsf : strFalsy req.sessionId = true
    · have h : applyOp cfg t (Op.upsert u req) db = db := by
        simp [applyOp, upsertSession, hsf]
      rw [h]; exact hcount
    · have hsf' : strFalsy req.sessionId = false := by
        cases hx : strFalsy req.sessionId
        · rfl
        · exact absurd hx hsf
      have hsub : (upsertPruned cfg u t db).Sublist db.rows := List.filter_sublist _
      have hnd1 : ((upsertPruned cfg u t db).map (fun r => r.rowId)).Nodup :=
        List.Nodup.sublist (List.Sublist.map _ hsub) hWF.1
      have hinj1 := nodup_key_inj _ hnd1
      cases hfind : findSession u.id (req.sessionId.getD "") (upsertPruned cfg u t db) with
      | some ex =>
        have h : applyOp cfg t (Op.upsert u req) db
            = { rows := (upsertPruned cfg u t db).map (fun x =>
                  if x.rowId == ex.rowId then
                    renewUpdate t (optStr req.deviceId) (optStr req.ip) (uaOpt req.userAgent) x
                  else x), nextId := db.nextId } := by
          simp [applyOp, upsertSession, hsf', hfind]
        rw [h]
        have hexmem : ex ∈ upsertPruned cfg u t db := List.mem_of_find?_eq_some hfind
        have hpred := List.find?_some hfind
        simp only [Bool.and_eq_true, beq_iff_eq] at hpred
        simp only [countActive, activeRows] at hcount ⊢
        have hstep2 : ((upsertPruned cfg u t db).filter
            (activePredT uid (t - getSessionTtlMsForRole cfg roleR))).length
            ≤ (db.rows.filter
                (activePredT uid (t - getSessionTtlMsForRole cfg roleR))).length := by
          rw [show upsertPruned cfg u t db = db.rows.filter (fun r =>
              !(r.userId == u.id && decide (r.lastSeen < upsertTtlDate cfg u t)))
            from by rw [upsertPruned, pruneStale]]
          exact count_filter_le _ _ db.rows
        refine le_trans (le_trans (count_map_le _ _ _ ?_) hstep2) hcount
        intro r hrmem hp
        by_cases hbe : (r.rowId == ex.rowId) = true
        · have hrex : r = ex := hinj1 r hrmem ex hexmem (by simpa using hbe)
          subst hrex
          rw [if_pos hbe] at hp
          simp only [activePredT, renewUpdate, Bool.and_eq_true, Bool.not_eq_true',
            decide_eq_true_eq] at hp ⊢
          obtain ⟨⟨hid, -⟩, -⟩ := hp
          have huid : u.id = uid := by
            rw [← hpred.1]
            simpa using hid
          have hres := hnr u req rfl huid
          rw [resurrectsB, hsf'] at hres
          simp only [Bool.not_false, Bool.true_and] at hres
          rw [hfind] at hres
          refine ⟨⟨hid, hres⟩, ?_⟩
          have hrmem' := hrmem
          rw [upsertPruned, pruneStale] at hrmem'
          have hkeep := (List.mem_filter.mp hrmem').2
          have hbu : (r.userId == u.id) = true := by simp [hpred.1]
          simp only [hbu, Bool.true_and, Bool.not_eq_true'] at hkeep
          have hfr := of_decide_eq_false hkeep
          have hrole : u.role = roleR := by
            simp only [opConsistentB] at hco
            have hb : (u.id == uid) = true := by simp [huid]
            rw [hb] at hco
            simpa using hco
          rw [upsertTtlDate, hrole] at hfr
          omega
        · rw [if_neg hbe] at hp
          exact hp
      | none =>
        have h : applyOp cfg t (Op.upsert u req) db
            = { rows := markRevoked
                  ((evictList (limitForRole u.role)
                      (sortLS (upsertActive cfg u t db))).map (fun x => x.rowId))
                  (upsertPruned cfg u t db)
                ++ [{ rowId := db.nextId, userId := u.id,
                      sessionId := req.sessionId.getD "",
                      deviceId := optStr req.deviceId, ipAddress := optStr req.ip,
                      userAgent := uaOpt req.userAgent,
                      startedAt := t, lastSeen := t, revoked := false }],
                nextId := db.nextId + 1 } := by
          simp [applyOp, upsertSession, hsf', hfind]
        rw [h]
        by_cases huid : u.id = uid
        · have hrole : u.role = roleR := by
            simp only [opConsistentB] at hco
            have hb : (u.id == uid) = true := by simp [huid]
            rw [hb] at hco
            simpa using hco
          have hT : upsertTtlDate cfg u t = t - getSessionTtlMsForRole cfg roleR := by
            rw [upsertTtlDate, hrole]
          have hact : upsertActive cfg u t db
              = activeRows uid (t - getSessionTtlMsForRole cfg roleR)
                  (upsertPruned cfg u t db) := by
            rw [upsertActive, hT, huid]
          have hlimeq : limitForRole u.role = limitForRole roleR := by rw [hrole]
          simp only [countActive, activeRows]
          rw [hact, hlimeq]
          apply insert_branch_count
          · rw [limitForRole]
            by_cases hx : (roleR == "admin") = true
            · rw [if_pos hx]; omega
            · rw [if_neg hx]
          · have hle : t - getSessionTtlMsForRole cfg roleR ≤ t := by omega
            simp [activePredT, huid, hle]
        · have hb : (u.id == uid) = false := by
            cases hx : u.id == uid
            · rfl
            · exact absurd (by simpa using hx) huid
          have hnew : activePredT uid (t - getSessionTtlMsForRole cfg roleR)
              { rowId := db.nextId, userId := u.id,
                sessionId := req.sessionId.getD "",
                deviceId := optStr req.deviceId, ipAddress := optStr req.ip,
                userAgent := uaOpt req.userAgent,
                startedAt := t, lastSeen := t, revoked := false } = false := by
            simp [activePredT, hb]
          simp only [countActive, activeRows] at hcount ⊢
          refine le_trans (le_trans
            (insert_branch_count_other uid _ _ _ _ hnew) ?_) hcount
          rw [show upsertPruned cfg u t db = db.rows.filter (fun r =>
              !(r.userId == u.id && decide (r.lastSeen < upsertTtlDate cfg u t)))
            from by rw [upsertPruned, pruneStale]]
          exact count_filter_le _ _ db.rows

lemma run_bound (cfg : Config) (hc : 0 ≤ cfg.sessionTtlMs ∧ 0 ≤ cfg.adminSessionTtlMs)
    (uid : Nat) (roleR : String) :
    ∀ (trace : List (Int × Op)) (db : Db) (t0 : Int),
      dbWF db →
      countActive cfg uid roleR t0 db ≤ limitForRole roleR →
      chainLe t0 (trace.map Prod.fst) = true →
      trace.all (fun p => opConsistentB uid roleR p.2) = true →
      noResurrectB cfg uid db trace = true →
      countActive cfg uid roleR (lastTime t0 trace) (runOps cfg db trace)
        ≤ limitForRole roleR := by
  intro trace
  induction trace with
  | nil =>
    intro db t0 _ hcount _ _ _
    exact hcount
  | cons p rest ih =>
    obtain ⟨t, op⟩ := p
    intro db t0 hWF hcount hchain hcons hnores
    rw [List.map_cons] at hchain
    simp only [chainLe] at hchain
    rw [Bool.and_eq_true] at hchain
    obtain ⟨hch1, hchain2⟩ := hchain
    have ht0t : t0 ≤ t := of_decide_eq_true hch1
    rw [List.all_cons, Bool.and_eq_true] at hcons
    obtain ⟨hcons1, hcons2⟩ := hcons
    simp only [noResurrectB] at hnores
    rw [Bool.and_eq_true] at hnores
    obtain ⟨hhead, hnores2⟩ := hnores
    have hpre : countActive cfg uid roleR t db ≤ limitForRole roleR :=
      le_trans (countActive_mono_time cfg uid roleR t0 t ht0t db) hcount
    have hnr : ∀ u req, op = Op.upsert u req → u.id = uid →
        resurrectsB cfg u req t db = false := by
      intro u req hop huid
      subst hop
      dsimp only at hhead
      have hb : (u.id == uid) = true := by simp [huid]
      rw [hb] at hhead
      simp only [Bool.not_true, Bool.false_or, Bool.not_eq_true'] at hhead
      exact hhead
    have hstep := step_bound cfg hc uid roleR t op db hWF hpre hcons1 hnr
    have hWF2 := wf_applyOp cfg t op db hWF
    exact ih (applyOp cfg t op db) t hWF2 hstep hchain2 hcons2 hnores2

/-- C1 amended: starting from the empty session table, along every
sequence of sequentially executed operations (admissions, validations,
logouts, admin revocations) with non-decreasing timestamps, in which
operations aimed at the account carry the account's role and in which NO
admission renews an already-revoked row of the account, the number of the
account's rows that are simultaneously `revoked = false` and fresh
(`last_seen` within `TTL(role)` of the current time) never exceeds
`limit(role)` (2 for the role string "admin", 1 otherwise); since every
prefix of such a trace satisfies the same conditions, the bound holds
after each operation. The claim as stated — without the no-resurrection
proviso — is false: the renewal branch of `upsertSession` resets
`revoked = false` and can push the account over the bound (see the
counterexample). -/
theorem c1_bound_amended (cfg : Config)
    (hc : 0 ≤ cfg.sessionTtlMs ∧ 0 ≤ cfg.adminSessionTtlMs)
    (uid : Nat) (roleR : String) (t0 : Int) (trace : List (Int × Op))
    (hchain : chainLe t0 (trace.map Prod.fst) = true)
    (hcons : trace.all (fun p => opConsistentB uid roleR p.2) = true)
    (hnores : noResurrectB cfg uid emptyDb trace = true) :
    countActive cfg uid roleR (lastTime t0 trace) (runOps cfg emptyDb trace)
      ≤ limitForRole roleR := by
  have hWF0 : dbWF emptyDb := by
    constructor
    · exact List.nodup_nil
    · intro r hr
      cases hr
  have hcount0 : countActive cfg uid roleR t0 emptyDb ≤ limitForRole roleR := by
    have hz : countActive cfg uid roleR t0 emptyDb = 0 := rfl
    rw [hz]
    exact Nat.zero_le _
  exact run_bound cfg hc uid roleR trace emptyDb t0 hWF0 hcount0 hchain hcons hnores

/-- C1 amended witness: a concrete resurrection-free trace — admit S1,
validate it, log it out, admit S2 — stays within the limit. -/
theorem c1_bound_amended_witness :
    countActive defaultConfig 1 "user"
        (lastTime 0 [(0, Op.upsert userU (reqOf "S1")),
          (1, Op.validate userU (some "S1") (reqOf "S1")),
          (2, Op.logout 1 (some "S1")),
          (3, Op.upsert userU (reqOf "S2"))])
        (runOps defaultConfig emptyDb [(0, Op.upsert userU (reqOf "S1")),
          (1, Op.validate userU (some "S1") (reqOf "S1")),
          (2, Op.logout 1 (some "S1")),
          (3, Op.upsert userU (reqOf "S2"))])
      ≤ limitForRole "user" :=
  c1_bound_amended defaultConfig (by decide) 1 "user" 0
    [(0, Op.upsert userU (reqOf "S1")),
     (1, Op.validate userU (some "S1") (reqOf "S1")),
     (2, Op.logout 1 (some "S1")),
     (3, Op.upsert userU (reqOf "S2"))]
    (by decide) (by decide) (by decide)

end CQ

namespace CQ

/-! ### Claim C9 — counterexample -/

/-- C9 counterexample. The claim says the client mirror computes the same
TTL(role) freshness window and the same eviction choice as the server. On
two admin sessions last seen 20 minutes ago, at the admin limit: the
server (admin TTL 30 days) treats both as active and evicts the
least-recently-used S1 when S3 is admitted, while the mirror (fixed
10-minute TTL for every role) prunes both as stale and evicts nothing. -/
theorem c9_mirror_counterexample :
    getSessionTtlMsForRole defaultConfig "admin" = 2592000000 ∧
    CLIENT_SESSION_TTL_MS = 600000 ∧
    (upsertSession defaultConfig userA (reqOf "S3") 10000000 dbStaleMirror).2.revokedSessions
      = ["S1"] ∧
    (registerSessionForUser storeStaleMirror "S3" "dev" "ua" "admin"
        10000000).2.kickedSessionId = none := by
  decide

end CQ
